import Mathlib

/-!
Verification development for the macronome meal-recommendation pipeline.

Scope: the iterative constraint-satisfaction modification loop and its
helpers, embedded shallowly from the Python sources:
  - `src/macronome/ai/utils/ingredient_parser.py`
  - `src/macronome/ai/utils/nutrition_calculator.py`
  - `src/macronome/ai/workflows/meal_recommender_workflow_nodes/modification_agent.py`

Modelling conventions:
  - Python `float` values are modelled as exact rationals (`ℚ`) wherever the
    computations under scrutiny are exact in IEEE-754 binary64 (single
    products of decimal literals with small integers, sums of exact values).
    For the constraint checker, where rounding is observable, an exact model
    of binary64 round-to-nearest-even (`roundD`) is used.
  - Python strings are ASCII here; `lower()` is `Char.toLower` per character.
  - `int()` truncation toward zero is `pyTrunc`.
  - Fallible operations (`float(..)`, `int(..)`) return `Option`/`Except`;
    `try/except` blocks are modelled by explicit handlers.
  - Recursive scanners use explicit fuel (always at least the remaining
    input length plus one, so the fuel is never exhausted); this keeps every
    definition structurally recursive and kernel-evaluable.
-/

set_option maxRecDepth 4000

/-! ### Python string primitives -/

/-- Python whitespace characters (ASCII subset of `str.split` / `str.strip`):
space, tab, newline, carriage return, vertical tab, form feed. -/
def isSpaceChar (c : Char) : Bool :=
  c.toNat = 32 ∨ c.toNat = 9 ∨ c.toNat = 10 ∨ c.toNat = 13 ∨ c.toNat = 11 ∨ c.toNat = 12

def isDigitChar (c : Char) : Bool := 48 ≤ c.toNat ∧ c.toNat ≤ 57

/-- Python `\w` word characters (ASCII). -/
def isWordChar (c : Char) : Bool := c.isAlpha ∨ isDigitChar c ∨ c = '_'

/-- Python `str.lower()` (ASCII). -/
def pyLower (s : String) : String := String.mk (s.data.map Char.toLower)

def stripLeft (l : List Char) : List Char := l.dropWhile isSpaceChar

def stripRight (l : List Char) : List Char := (l.reverse.dropWhile isSpaceChar).reverse

/-- Python `str.strip()` (ASCII whitespace). -/
def pyStrip (s : String) : String := String.mk (stripRight (stripLeft s.data))

/-- Substring containment (`needle in hay` on Python strings). -/
def listContainsSub : List Char → List Char → Bool
  | [], n => n.isPrefixOf []
  | l@(_ :: t), n => if n.isPrefixOf l then true else listContainsSub t n

def strContains (hay needle : String) : Bool := listContainsSub hay.data needle.data

/-- `any(x in hay for x in needles)`. -/
def strContainsAny (hay : String) (needles : List String) : Bool :=
  needles.any (fun n => strContains hay n)

/-- Python `int()` truncation of a float (toward zero), on the rational model. -/
def pyTrunc (q : ℚ) : ℤ := if 0 ≤ q then ⌊q⌋ else -⌊-q⌋

/-! ### Data model (recipe_schema.py, workflow_schemas.py, backend schemas) -/

/-- `ParsedIngredient` (recipe_schema.py): structured ingredient. -/
structure ParsedIngredient where
  ingredient : String
  quantity : ℚ
  unit : String
  modifier : Option String
  deriving DecidableEq

/-- `NutritionInfo` (recipe_schema.py): calculated nutrition, integer fields. -/
structure NutritionInfo where
  calories : ℤ
  protein : ℤ
  carbs : ℤ
  fat : ℤ
  deriving DecidableEq

/-- `MacroConstraints` (backend/api/schemas.py): optional integer gram targets. -/
structure MacroConstraints where
  carbs : Option ℤ
  protein : Option ℤ
  fat : Option ℤ
  deriving DecidableEq

/-- `NormalizedConstraints` (meal_recommender_constraints_schema.py).
Only the fields read by `ModificationAgent._check_constraints_met` are
modelled; `calorie_range` is `[min, max]` (validated to length 2, so a pair).
The remaining fields (diet_type, excluded_ingredients, prep_time_max,
custom_constraints, semantic_query) are never read by the checker or loop. -/
structure NormalizedConstraints where
  calorie_range : Option (ℤ × ℤ)
  macro_targets : Option MacroConstraints
  deriving DecidableEq

/-- `ModifiedRecipe` (workflow_schemas.py): output of the Modification Agent. -/
structure ModifiedRecipe where
  recipe_id : String
  title : String
  ingredients : List ParsedIngredient
  directions : String
  modifications : List String
  reasoning : String
  deriving DecidableEq

/-! ### NutritionCalculator._convert_to_grams (utils/nutrition_calculator.py 152-253) -/

/-- `NutritionCalculator._convert_to_grams`: unit → grams heuristic table,
translated branch for branch (including branches made unreachable by the
`"g" in unit_lower` substring test coming first). -/
def convert_to_grams (quantity : ℚ) (unit : String) (ingredient_name : String) : ℚ :=
  let unit_lower := if unit = "" then "" else pyLower unit
  -- Weight units - direct conversion
  if strContains unit_lower "g" ∨ strContains unit_lower "gram" then quantity
  else if strContains unit_lower "kg" ∨ strContains unit_lower "kilogram" then quantity * 1000
  else if strContains unit_lower "oz" ∨ strContains unit_lower "ounce" then quantity * (2835/100)
  else if strContains unit_lower "lb" ∨ strContains unit_lower "pound" then quantity * (4536/10)
  -- Cup conversions, by ingredient density class
  else if strContains unit_lower "cup" then
    let ing_lower := pyLower ingredient_name
    if strContainsAny ing_lower ["flour", "sugar", "powder"] then quantity * 120
    else if strContainsAny ing_lower ["butter", "oil", "shortening"] then quantity * 225
    else if strContainsAny ing_lower ["water", "milk", "liquid", "juice"] then quantity * 240
    else if strContainsAny ing_lower ["rice", "grain"] then quantity * 185
    else quantity * 150
  else if strContains unit_lower "tablespoon" ∨ strContains unit_lower "tbsp" then quantity * 15
  else if strContains unit_lower "teaspoon" ∨ strContains unit_lower "tsp" then quantity * 5
  else if strContains unit_lower "quart" ∨ strContains unit_lower "qt" then quantity * 946
  else if strContains unit_lower "pint" ∨ strContains unit_lower "pt" then quantity * 473
  -- Container units
  else if strContains unit_lower "can" then quantity * 400
  else if strContains unit_lower "jar" then quantity * 350
  else if strContains unit_lower "box" ∨ strContains unit_lower "pkg" ∨
          strContains unit_lower "package" then quantity * 300
  else if strContains unit_lower "carton" then quantity * 500
  else if strContains unit_lower "bottle" then quantity * 500
  -- Size descriptors
  else if strContains unit_lower "small" then quantity * 150
  else if strContains unit_lower "medium" then quantity * 250
  else if strContains unit_lower "large" then quantity * 350
  -- Bread/loaf units
  else if strContains unit_lower "loaf" then quantity * 600
  -- Piece-based units
  else if strContainsAny unit_lower ["slice", "piece", "clove", "serving"] then quantity * 50
  -- Fallback
  else quantity * 100

/-! ### More Python string primitives -/

/-- Word splitter for `str.split()` (no argument): words between whitespace runs. -/
def splitWsGo : List Char → List Char → List (List Char)
  | [], cur => if cur = [] then [] else [cur.reverse]
  | c :: t, cur =>
    if isSpaceChar c then (if cur = [] then splitWsGo t [] else cur.reverse :: splitWsGo t [])
    else splitWsGo t (c :: cur)

/-- Python `str.split()` with no argument. -/
def pySplitWs (s : String) : List String := (splitWsGo s.data []).map String.mk

/-- Scanner for `str.split(maxsplit=k)`: after `k` splits the remainder (with
leading whitespace removed, trailing whitespace kept) is the final element.
Fuel is at least `length + 1` so it is never exhausted. -/
def splitMaxGo : ℕ → ℕ → List Char → List (List Char)
  | 0, _, _ => []
  | f+1, k, l =>
    let l1 := l.dropWhile isSpaceChar
    if l1.isEmpty then []
    else if k = 0 then [l1]
    else l1.takeWhile (fun c => ¬ isSpaceChar c) ::
      splitMaxGo f (k-1) (l1.dropWhile (fun c => ¬ isSpaceChar c))

/-- Python `str.split(maxsplit=k)`. -/
def pySplitMax (s : String) (k : ℕ) : List String :=
  (splitMaxGo (s.data.length + 1) k s.data).map String.mk

/-- `" ".join(s.split())`: collapse whitespace runs to single spaces. -/
def wsCollapse (s : String) : String := String.intercalate " " (pySplitWs s)

/-- Scanner for `str.replace` (all non-overlapping occurrences, left to right);
the pattern is nonempty at every call site. -/
def replaceGo : ℕ → List Char → List Char → List Char → List Char
  | 0, l, _, _ => l
  | f+1, l, pat, rep =>
    if pat.isPrefixOf l then rep ++ replaceGo f (l.drop pat.length) pat rep
    else match l with
      | [] => []
      | c :: t => c :: replaceGo f t pat rep

/-- Python `str.replace(pat, rep)`. -/
def pyReplace (s pat rep : String) : String :=
  String.mk (replaceGo (s.data.length + 1) s.data pat.data rep.data)

/-! ### NutritionCalculator lookup and calculate (utils/nutrition_calculator.py) -/

/-- `NutritionCalculator._clean_ingredient_name` (lines 31-63). The apostrophe
character removed by the source is written `Char.ofNat 39`. -/
def clean_ingredient_name (ingredient_name : String) : String :=
  if ingredient_name = "" then ""
  else
    let c1 := pyReplace ingredient_name "%" " percent"
    let c2 := pyReplace c1 "percent" "percent"
    let c3 := pyReplace c2 "\"" ""
    let c4 := pyReplace c3 (String.mk [Char.ofNat 39]) ""
    let c5 := pyReplace c4 "/" " "
    let c6 := pyReplace c5 "\\" " "
    pyStrip (wsCollapse c6)

/-- The per-100g nutrient dict built by `_lookup_usda` from a USDA food
record: each of the four tracked nutrient ids may be absent. -/
structure UsdaProfile where
  calories : Option ℚ
  protein : Option ℚ
  carbs : Option ℚ
  fat : Option ℚ
  deriving DecidableEq

/-- Python falsiness of the nutrients dict (`if not usda_data`): the dict is
empty iff no tracked nutrient id occurred. -/
def UsdaProfile.isEmptyDict (p : UsdaProfile) : Bool :=
  p.calories = none ∧ p.protein = none ∧ p.carbs = none ∧ p.fat = none

/-- Mutable state of a `NutritionCalculator` instance: the memo cache
(`self._cache`, keyed by `name.lower().strip()`) plus a count of external
USDA API requests issued (for the cache-idempotence claim). -/
structure CalcState where
  cache : List (String × UsdaProfile)
  calls : ℕ

/-- `NutritionCalculator._lookup_usda` (lines 65-150). The external API is
abstracted as `api : cleaned-query ↦ Option UsdaProfile`: `some p` models a
response with a nonempty `foods` list (candidate selection and nutrient
extraction, lines 108-140, happen inside the provider and always succeed),
`none` models an empty result or any HTTP/exception failure, after which
nothing is cached. `hasKey` is `self._api_key` being set; without it no
external request is made. Each external request increments `calls`. -/
def lookup_usda (api : String → Option UsdaProfile) (hasKey : Bool)
    (st : CalcState) (ingredient_name : String) : Option UsdaProfile × CalcState :=
  let cache_key := pyStrip (pyLower ingredient_name)
  match st.cache.lookup cache_key with
  | some v => (some v, st)
  | none =>
    if ¬ hasKey then (none, st)
    else
      match api (clean_ingredient_name ingredient_name) with
      | none => (none, ⟨st.cache, st.calls + 1⟩)
      | some nutrients =>
          (some nutrients, ⟨(cache_key, nutrients) :: st.cache, st.calls + 1⟩)

/-- One iteration of the `for ing in ingredients` loop of
`NutritionCalculator.calculate` (lines 275-312), applied to the result `r`
of the `_lookup_usda` call for `ing`: a falsy result (`None` or the empty
dict) contributes nothing; otherwise the four totals grow by the profile
values scaled by `grams / 100`, with `grams` the raw quantity for gram
units and `_convert_to_grams` otherwise. Returns the updated state and
totals. -/
def calcStep (ing : ParsedIngredient) (r : Option UsdaProfile × CalcState)
    (tc tp tcb tf : ℚ) : CalcState × ℚ × ℚ × ℚ × ℚ :=
  match r.1 with
  | none => (r.2, tc, tp, tcb, tf)
  | some usda =>
    if usda.isEmptyDict then (r.2, tc, tp, tcb, tf)
    else
      let unit_lower := if ing.unit = "" then "" else pyLower ing.unit
      let scale :=
        if unit_lower = "g" ∨ unit_lower = "gram" ∨ unit_lower = "grams"
        then ing.quantity / 100
        else convert_to_grams ing.quantity ing.unit ing.ingredient / 100
      (r.2, tc + usda.calories.getD 0 * scale, tp + usda.protein.getD 0 * scale,
       tcb + usda.carbs.getD 0 * scale, tf + usda.fat.getD 0 * scale)

/-- Accumulator loop of `NutritionCalculator.calculate` (lines 270-319):
per-ingredient lookup and `calcStep`, and final `int()` truncation of the
four totals. -/
def calculateGo (api : String → Option UsdaProfile) (hasKey : Bool) :
    List ParsedIngredient → CalcState → ℚ → ℚ → ℚ → ℚ → NutritionInfo × CalcState
  | [], st, tc, tp, tcb, tf => (⟨pyTrunc tc, pyTrunc tp, pyTrunc tcb, pyTrunc tf⟩, st)
  | ing :: rest, st, tc, tp, tcb, tf =>
    let s := calcStep ing (lookup_usda api hasKey st ing.ingredient) tc tp tcb tf
    calculateGo api hasKey rest s.1 s.2.1 s.2.2.1 s.2.2.2.1 s.2.2.2.2

/-- `NutritionCalculator.calculate` (lines 255-324). -/
def calculate (api : String → Option UsdaProfile) (hasKey : Bool)
    (st : CalcState) (ingredients : List ParsedIngredient) : NutritionInfo × CalcState :=
  calculateGo api hasKey ingredients st 0 0 0 0

/-- The cache key of an ingredient: `ingredient_name.lower().strip()`
(nutrition_calculator.py 78). -/
def keyOf (ing : ParsedIngredient) : String := pyStrip (pyLower ing.ingredient)

/-- The calculator state after a `calculate` pass (the state does not depend
on the running totals). -/
def stateAfter (api : String → Option UsdaProfile) (hasKey : Bool)
    (st : CalcState) (ings : List ParsedIngredient) : CalcState :=
  (calculateGo api hasKey ings st 0 0 0 0).2

/-- External-call count of a key sequence against a seen-key list: one call
per key not previously seen (and not in the cache), matching the
cache-then-call discipline of `_lookup_usda`. -/
def newCount : List String → List String → ℕ
  | [], _ => 0
  | k :: ks, seen => if k ∈ seen then newCount ks seen else 1 + newCount ks (k :: seen)

/-- All four defaulted nutrient values of a profile are non-negative. -/
def profNonneg (p : UsdaProfile) : Prop :=
  0 ≤ p.calories.getD 0 ∧ 0 ≤ p.protein.getD 0 ∧ 0 ≤ p.carbs.getD 0 ∧ 0 ≤ p.fat.getD 0

instance (p : UsdaProfile) : Decidable (profNonneg p) := by
  unfold profNonneg
  infer_instance

/-! ### Exact model of IEEE-754 binary64 rounding

The constraint checker's tolerance arithmetic happens in Python floats, and
its boundary behaviour is observable, so the checker is embedded over an
exact model of binary64 round-to-nearest-ties-even. Overflow and subnormal
ranges never arise for the values involved and are not modelled. -/

/-- Bit length of a natural number (fuel-based halving; fuel 4200 covers all
magnitudes occurring in any evaluated computation). -/
def natBits : ℕ → ℕ → ℕ
  | 0, _ => 0
  | f+1, n => if n = 0 then 0 else natBits f (n / 2) + 1

def bits (n : ℕ) : ℕ := natBits 4200 n

/-- For `a, b ≥ 1`: the exponent `e` with `2^e ≤ a/b < 2^(e+1)`. -/
def qexp (a b : ℕ) : ℤ :=
  let e0 : ℤ := (bits a : ℤ) - (bits b : ℤ)
  if 0 ≤ e0 then (if b * 2 ^ e0.toNat ≤ a then e0 else e0 - 1)
  else (if b ≤ a * 2 ^ (-e0).toNat then e0 else e0 - 1)

/-- Round `A / B` to the nearest integer, ties to even. -/
def roundMant (A B : ℕ) : ℕ :=
  let fl := A / B
  let r := A % B
  if B < 2 * r then fl + 1 else if 2 * r < B then fl else if fl % 2 = 0 then fl else fl + 1

/-- Round a positive rational to the nearest binary64 value (53-bit
significand at the exponent of `q`, ties to even). -/
def roundPos (q : ℚ) : ℚ :=
  let a := q.num.toNat
  let b := q.den
  let k : ℤ := qexp a b - 52
  if 0 ≤ k then mkRat ((roundMant a (b * 2 ^ k.toNat) * 2 ^ k.toNat : ℕ) : ℤ) 1
  else mkRat ((roundMant (a * 2 ^ (-k).toNat) b : ℕ) : ℤ) (2 ^ (-k).toNat)

/-- Round any rational to the nearest binary64 value. -/
def roundD (q : ℚ) : ℚ :=
  if q = 0 then 0 else if q < 0 then - roundPos (-q) else roundPos q

/-- The binary64 value denoted by the Python literal `0.15`. -/
def tolD : ℚ := roundD (3/20)

/-- Binary64 subtraction. -/
def fsub (x y : ℚ) : ℚ := roundD (x - y)

/-- Binary64 addition. -/
def fadd (x y : ℚ) : ℚ := roundD (x + y)

/-- Binary64 multiplication. -/
def fmul (x y : ℚ) : ℚ := roundD (x * y)

/-- Python `int` → `float` conversion. -/
def intFloat (n : ℤ) : ℚ := roundD (n : ℚ)

/-- CPython `int / int` true division: the correctly rounded exact quotient. -/
def intDivFloat (a b : ℤ) : ℚ := roundD ((a : ℚ) / (b : ℚ))

/-! ### ModificationAgent._check_constraints_met (modification_agent.py 366-405) -/

/-- One entry of the checker's `issues` list. The human-readable message text
is abstracted to a tagged value carrying the numbers interpolated into it;
list length and emptiness are preserved exactly. -/
inductive Issue where
  | calorieIssue (actual : ℤ) (target_min target_max : ℤ)
  | proteinIssue (actual : ℤ) (target : ℤ)
  | carbsIssue (actual : ℤ) (target : ℤ)
  | fatIssue (actual : ℤ) (target : ℤ)
  deriving DecidableEq

/-- One macro-target check (lines 390-403, identical for the three macros):
skipped when the target is absent or `0` (Python truthiness of
`targets.protein`); flagged when `abs(actual - target) / max(target, 1)`
exceeds `tolerance`. -/
def macroIssue (actual : ℤ) (target : Option ℤ) (mk : ℤ → ℤ → Issue) : List Issue :=
  match target with
  | none => []
  | some t =>
    if t = 0 then []
    else if tolD < intDivFloat |actual - t| (max t 1) then [mk actual t] else []

/-- `ModificationAgent._check_constraints_met`: returns `(met, issues)` with
`met = (len(issues) == 0)`. Tolerance arithmetic is in binary64, matching
the source's float computations (`tolerance = 0.15`,
`min_acceptable = target_min * (1 - tolerance)`, etc.). -/
def check_constraints_met (nutrition : NutritionInfo) (constraints : NormalizedConstraints) :
    Bool × List Issue :=
  let calIssues : List Issue :=
    match constraints.calorie_range with
    | none => []
    | some (target_min, target_max) =>
      let min_acceptable := fmul (intFloat target_min) (fsub 1 tolD)
      let max_acceptable := fmul (intFloat target_max) (fadd 1 tolD)
      if ¬ (min_acceptable ≤ (nutrition.calories : ℚ) ∧
            (nutrition.calories : ℚ) ≤ max_acceptable) then
        [Issue.calorieIssue nutrition.calories target_min target_max]
      else []
  let macros : List Issue :=
    match constraints.macro_targets with
    | none => []
    | some targets =>
      macroIssue nutrition.protein targets.protein Issue.proteinIssue ++
      macroIssue nutrition.carbs targets.carbs Issue.carbsIssue ++
      macroIssue nutrition.fat targets.fat Issue.fatIssue
  let issues := calIssues ++ macros
  (issues.length == 0, issues)

/-! ### ModificationAgent.process: the iterative modification loop
(modification_agent.py 407-605)

The loop state carries exactly what the loop body reads and writes:
`final_modified_recipe`, `constraints_met`, `issues`, `self._current_nutrition`,
the nutrition calculator's cache state, and (for the claims about invocation
counts) the number of `self.agent.run` calls made. The Recipe Editor is the
opaque external `agent : iteration ↦ ModifiedRecipe`, modelling the
structured output of each LLM invocation of the run under consideration. -/

/-- `ModificationAgent.__init__` (line 58): `self._max_iterations = 3`. -/
def max_iterations : ℕ := 3

structure LoopState where
  final : Option ModifiedRecipe
  met : Bool
  issues : List Issue
  nutrition : NutritionInfo
  calcState : CalcState
  agentCalls : ℕ

/-- One pass of `for iteration in range(1, self._max_iterations + 1)`
(lines 498-580): if `constraints_met` holds on entry, `break` (no further
pass changes the state); otherwise invoke the agent, recompute nutrition on
the new ingredient list (through the shared cached calculator), and re-run
the constraint check. -/
def loop_step (api : String → Option UsdaProfile) (hasKey : Bool)
    (constraints : NormalizedConstraints) (agent : ℕ → ModifiedRecipe)
    (st : LoopState) (iteration : ℕ) : LoopState :=
  if st.met then st
  else
    let mr := agent iteration
    let r := calculate api hasKey st.calcState mr.ingredients
    let chk := check_constraints_met r.1 constraints
    ⟨some mr, chk.1, chk.2, r.1, r.2, st.agentCalls + 1⟩

/-- Entry state of the loop (lines 467-497): baseline nutrition of the parsed
initial ingredients, baseline constraint check, no agent calls yet. -/
def process_baseline (api : String → Option UsdaProfile) (hasKey : Bool)
    (st0 : CalcState) (initialIngredients : List ParsedIngredient)
    (constraints : NormalizedConstraints) : LoopState :=
  let base := calculate api hasKey st0 initialIngredients
  let chk0 := check_constraints_met base.1 constraints
  ⟨none, chk0.1, chk0.2, base.1, base.2, 0⟩

/-- The loop state after iterations `1..k` have run. -/
def loop_after (api : String → Option UsdaProfile) (hasKey : Bool)
    (constraints : NormalizedConstraints) (agent : ℕ → ModifiedRecipe)
    (init : LoopState) (k : ℕ) : LoopState :=
  (List.range' 1 k).foldl (loop_step api hasKey constraints agent) init

/-- Result of `ModificationAgent.process`: the final `ModifiedRecipe` (agent
output, or the baseline recipe built at lines 583-592 when the loop never
invoked the agent), the nutrition saved to `task_context.nodes["NutritionNode"]`,
and the run's bookkeeping. -/
structure ProcessResult where
  finalRecipe : ModifiedRecipe
  nutrition : NutritionInfo
  agentCalls : ℕ
  met : Bool
  issues : List Issue

/-- `ModificationAgent.process` (lines 407-605), for a selected recipe whose
raw ingredient lines parse (lines 442-465) to `initialIngredients`. -/
def process_model (api : String → Option UsdaProfile) (hasKey : Bool)
    (recipe_id title directions : String)
    (initialIngredients : List ParsedIngredient) (constraints : NormalizedConstraints)
    (agent : ℕ → ModifiedRecipe) (st0 : CalcState) : ProcessResult :=
  let fin := loop_after api hasKey constraints agent
    (process_baseline api hasKey st0 initialIngredients constraints) max_iterations
  let finalRecipe := fin.final.getD
    ⟨recipe_id, title, initialIngredients, directions, [],
      "Baseline recipe already met constraints"⟩
  ⟨finalRecipe, fin.nutrition, fin.agentCalls, fin.met, fin.issues⟩

/-! ### Ingredient parser (utils/ingredient_parser.py)

`parse_ingredient` is embedded over `List Char` with bespoke matchers for
each regular expression of the source, reproducing the left-to-right,
leftmost-match, ordered-alternation semantics of Python `re` for those
patterns (the source strings are pre-stripped where the source strips them,
which fixes the `$`-before-final-newline subtlety to plain end-of-string for
the anchored-at-`$` patterns; `.` never matches a newline). Python exceptions
are modelled with `Except PyErr`: the only operations that can raise are
`int(..)`, `float(..)` and division, and every `try/except` of the source is
mirrored by total handling, so the `Except` layer records exactly where an
exception could escape. -/

inductive PyErr where
  | valueError
  | indexError
  | zeroDivisionError
  deriving DecidableEq

instance exceptDecEq {α β : Type} [DecidableEq α] [DecidableEq β] :
    DecidableEq (Except α β) := fun x y =>
  match x, y with
  | .ok a, .ok b =>
    if h : a = b then .isTrue (by rw [h]) else .isFalse (by simp [h])
  | .error a, .error b =>
    if h : a = b then .isTrue (by rw [h]) else .isFalse (by simp [h])
  | .ok _, .error _ => .isFalse (by simp)
  | .error _, .ok _ => .isFalse (by simp)

def digitsVal (l : List Char) : ℕ := l.foldl (fun a c => a * 10 + (c.toNat - 48)) 0

/-- Optional leading sign of a Python numeric literal. -/
def pySign (l : List Char) : ℤ × List Char :=
  match l with
  | c :: t => if c = '+' then (1, t) else if c = '-' then (-1, t) else (1, l)
  | [] => (1, l)

/-- Python `int(str)`: optional surrounding whitespace and sign, then a
nonempty digit run; everything else raises `ValueError`. (Underscore digit
separators are not modelled.) -/
def pyIntE (s : String) : Except PyErr ℤ :=
  let l := stripRight (stripLeft s.data)
  let p := pySign l
  if ¬ p.2.isEmpty ∧ p.2.all isDigitChar then .ok (p.1 * (digitsVal p.2 : ℤ))
  else .error .valueError

def qpow10 (e : ℤ) : ℚ :=
  if 0 ≤ e then ((10 ^ e.toNat : ℕ) : ℚ) else 1 / ((10 ^ (-e).toNat : ℕ) : ℚ)

/-- Python `float(str)` on the exact-rational model: optional whitespace and
sign, digits with optional fraction part and optional exponent. `none` is a
`ValueError`. (The `inf`/`nan` forms and underscore separators are not
modelled, and the binary64 rounding of the parsed value is omitted: every
value reaching a claim is exactly representable.) -/
def pyFloatQ (s : String) : Option ℚ :=
  let l := stripRight (stripLeft s.data)
  let p0 := pySign l
  let p : ℚ × List Char := ((p0.1 : ℚ), p0.2)
  let ip := p.2.takeWhile isDigitChar
  let r1 := p.2.drop ip.length
  let fpr : List Char × List Char :=
    match r1 with
    | '.' :: t => (t.takeWhile isDigitChar, t.drop (t.takeWhile isDigitChar).length)
    | _ => ([], r1)
  let fp := fpr.1
  if ip.isEmpty ∧ fp.isEmpty then none
  else
    let mant : ℚ := (digitsVal ip : ℚ) + (digitsVal fp : ℚ) / ((10 ^ fp.length : ℕ) : ℚ)
    match fpr.2 with
    | [] => some (p.1 * mant)
    | c :: t =>
      if c = 'e' ∨ c = 'E' then
        let ep := pySign t
        if ¬ ep.2.isEmpty ∧ ep.2.all isDigitChar then
          some (p.1 * mant * qpow10 (ep.1 * (digitsVal ep.2 : ℤ)))
        else none
      else none

/-- Python `str.split('/')` (single-character separator, empty pieces kept). -/
def splitSlashGo : List Char → List Char → List (List Char)
  | [], cur => [cur.reverse]
  | c :: t, cur => if c = '/' then cur.reverse :: splitSlashGo t [] else splitSlashGo t (c :: cur)

def pySplitSlash (s : String) : List String := (splitSlashGo s.data []).map String.mk

/-- `_parse_quantity` (ingredient_parser.py 265-298): fraction `a/b` (with
`b = 0` falling through), else `float`, else `1.0`. Total: every internal
exception is caught by the source's own handlers. -/
def parse_quantity (qty_str : String) : ℚ :=
  let qs := pyStrip qty_str
  let viaFraction : Option ℚ :=
    if strContains qs "/" then
      let parts := pySplitSlash qs
      if parts.length = 2 then
        match pyFloatQ (parts.getD 0 ""), pyFloatQ (parts.getD 1 "") with
        | some n, some d => if d ≠ 0 then some (n / d) else none
        | _, _ => none
      else none
    else none
  match viaFraction with
  | some v => v
  | none =>
    match pyFloatQ qs with
    | some v => v
    | none => 1

/-- Case-insensitive literal match of a lowercase keyword at the head;
returns the matched original-case text and the remainder. -/
def stripPrefixCI : List Char → List Char → Option (List Char × List Char)
  | [], l => some ([], l)
  | _ :: _, [] => none
  | k :: ks, c :: t =>
    if Char.toLower c = k then
      match stripPrefixCI ks t with
      | some (taken, rest) => some (c :: taken, rest)
      | none => none
    else none

/-- Ordered alternation over keywords (first alternative that matches wins,
as in a Python `re` group `(kw1|kw2|...)`). -/
def firstKwCI : List (List Char) → List Char → Option (List Char × List Char)
  | [], _ => none
  | kw :: kws, l =>
    match stripPrefixCI kw l with
    | some r => some r
    | none => firstKwCI kws l

/-- Keyword vocabulary of the first modifier pattern (ingredient_parser.py 41),
in source order. No keyword is a prefix of another, so ordered alternation
matches at most one of them at a given position. -/
def modifierKws : List (List Char) :=
  ["optional", "divided", "to taste", "cooked", "crumbled", "diced", "chopped",
   "sliced", "cubed", "cut up", "beaten", "drained", "thawed", "crushed"].map String.data

/-- Match of `,\s*(KW).*$` (IGNORECASE) starting at the head: a comma, then
whitespace, then a keyword, then `.*$` — which, on a pre-stripped string,
succeeds iff no newline remains. Returns group 1 (original case). -/
def modifierP1At (l : List Char) : Option (List Char) :=
  match l with
  | ',' :: t =>
    let t1 := t.dropWhile isSpaceChar
    match firstKwCI modifierKws t1 with
    | some (g, rest) => if rest.contains '\n' then none else some g
    | none => none
  | _ => none

/-- Leftmost match of the first modifier pattern (`re.search`). Returns the
match start index and group 1. -/
def searchP1 : List Char → ℕ → Option (ℕ × List Char)
  | [], _ => none
  | l@(_ :: t), i =>
    match modifierP1At l with
    | some g => some (i, g)
    | none => searchP1 t (i + 1)

/-- Match of `\s+(optional|divided)$` (IGNORECASE) starting at the head,
on a pre-stripped string (`$` is plain end). Returns group 1. -/
def modifierP2At (l : List Char) : Option (List Char) :=
  match l with
  | c :: _ =>
    if isSpaceChar c then
      match firstKwCI (["optional", "divided"].map String.data) (l.dropWhile isSpaceChar) with
      | some (g, rest) => if rest.isEmpty then some g else none
      | none => none
    else none
  | [] => none

def searchP2 : List Char → ℕ → Option (ℕ × List Char)
  | [], _ => none
  | l@(_ :: t), i =>
    match modifierP2At l with
    | some g => some (i, g)
    | none => searchP2 t (i + 1)

/-- Modifier extraction (ingredient_parser.py 38-49): first pattern that
matches wins; the working string is truncated at the match start and
stripped. For pattern 1 the modifier is group 1; for pattern 2 it is
`group(0).strip()`, which equals its group 1. -/
def extract_modifier (s : String) : Option String × String :=
  match searchP1 s.data 0 with
  | some (i, g) => (some (String.mk g), pyStrip (String.mk (s.data.take i)))
  | none =>
    match searchP2 s.data 0 with
    | some (i, g) => (some (String.mk g), pyStrip (String.mk (s.data.take i)))
    | none => (none, s)

/-- Alternatives of `\b(c|oz|lb|lbs|pkg|Tbsp|tbsp|Tsp|tsp)\.` in source order
(case-sensitive). -/
def unitDotAlts : List (List Char) :=
  ["c", "oz", "lb", "lbs", "pkg", "Tbsp", "tbsp", "Tsp", "tsp"].map String.data

/-- First alternative matching literally at the head and followed by a
period; returns (alternative, remainder after the period). -/
def unitDotTry (l : List Char) : Option (List Char × List Char) :=
  unitDotAlts.foldr
    (fun a acc =>
      if (a ++ ['.']).isPrefixOf l then some (a, l.drop (a.length + 1)) else acc)
    none

/-- Scanner for `re.sub(r'\b(c|...|tsp)\.', r'\1', s)` (ingredient_parser.py
54): left-to-right, non-overlapping; `prev` is the previous character of the
original string for the `\b` test. -/
def subUnitDotGo : ℕ → Option Char → List Char → List Char
  | 0, _, l => l
  | f+1, prev, l =>
    let boundary := match prev with | none => true | some p => ¬ isWordChar p
    match (if boundary then unitDotTry l else none) with
    | some (a, rest) => a ++ subUnitDotGo f (some '.') rest
    | none =>
      match l with
      | [] => []
      | c :: t => c :: subUnitDotGo f (some c) t

def subUnitDot (s : String) : String :=
  String.mk (subUnitDotGo (s.data.length + 1) none s.data)

def isUpperAZ (c : Char) : Bool := 'A' ≤ c ∧ c ≤ 'Z'
def isLowerAZ (c : Char) : Bool := 'a' ≤ c ∧ c ≤ 'z'

/-- Group 1 of `(\d+/\d+|[0-9.]+)` at the head: ordered alternation,
each alternative greedy (no backtracking is possible into a following
`[A-Z]` since the character classes are disjoint). -/
def numLeadTry (l : List Char) : Option (List Char × List Char) :=
  let d1 := l.takeWhile isDigitChar
  let viaFraction : Option (List Char × List Char) :=
    if d1.isEmpty then none
    else
      match l.drop d1.length with
      | '/' :: r =>
        let d2 := r.takeWhile isDigitChar
        if d2.isEmpty then none else some (d1 ++ '/' :: d2, r.drop d2.length)
      | _ => none
  match viaFraction with
  | some r => some r
  | none =>
    let d := l.takeWhile (fun c => isDigitChar c ∨ c = '.')
    if d.isEmpty then none else some (d, l.drop d.length)

/-- `[A-Z][a-z]+` at the head. -/
def upperWordTry (l : List Char) : Option (List Char × List Char) :=
  match l with
  | c :: t =>
    if isUpperAZ c then
      let lo := t.takeWhile isLowerAZ
      if lo.isEmpty then none else some (c :: lo, t.drop lo.length)
    else none
  | [] => none

/-- Scanner for `re.sub(r'(\d+/\d+|[0-9.]+)([A-Z][a-z]+)', r'\1 \2', s)`
(ingredient_parser.py 57): insert a space between a quantity and a
capitalised unit. If the fraction alternative matches but no `[A-Z][a-z]+`
follows, the engine retries with the `[0-9.]+` alternative at the same
position. -/
def subNumUpperGo : ℕ → List Char → List Char
  | 0, l => l
  | f+1, l =>
    let att : Option (List Char × List Char × List Char) :=
      match numLeadTry l with
      | some (g1, r1) =>
        (match upperWordTry r1 with
         | some (g2, r2) => some (g1, g2, r2)
         | none =>
           let d := l.takeWhile (fun c => isDigitChar c ∨ c = '.')
           if d.isEmpty then none
           else
             match upperWordTry (l.drop d.length) with
             | some (g2, r2) => some (d, g2, r2)
             | none => none)
      | none => none
    match att with
    | some (g1, g2, r2) => g1 ++ ' ' :: g2 ++ subNumUpperGo f r2
    | none =>
      match l with
      | [] => []
      | c :: t => c :: subNumUpperGo f t

def subNumUpper (s : String) : String := String.mk (subNumUpperGo (s.data.length + 1) s.data)

/-- Match of `\s+[Tt]o\s+[Tt]aste\s*$` starting at the head (only the two
leading letters are case-flexible; the pattern has no IGNORECASE flag). -/
def toTasteAt (l : List Char) : Bool :=
  let t1 := l.dropWhile isSpaceChar
  if t1.length = l.length then false
  else
    match t1 with
    | c0 :: 'o' :: rest =>
      if c0 = 't' ∨ c0 = 'T' then
        let r1 := rest.dropWhile isSpaceChar
        if r1.length = rest.length then false
        else
          match r1 with
          | c1 :: 'a' :: 's' :: 't' :: 'e' :: rest2 =>
            (c1 = 't' ∨ c1 = 'T') ∧ rest2.all isSpaceChar
          | _ => false
      else false
    | _ => false

/-- `re.sub(r'\s+[Tt]o\s+[Tt]aste\s*$', '', s)` (ingredient_parser.py 60):
truncate at the leftmost match (the match always extends to the end). -/
def subToTasteGo : List Char → List Char
  | [] => []
  | l@(c :: t) => if toTasteAt l then [] else c :: subToTasteGo t

def subToTaste (s : String) : String := String.mk (subToTasteGo s.data)

/-- Scanner for `re.sub(r'\bWORD\b', repl, s, flags=re.IGNORECASE)`
(ingredient_parser.py 63-66): whole-word case-insensitive replacement;
`prev` is the previous original character for the left `\b`. -/
def wordSubGo (word repl : List Char) : ℕ → Option Char → List Char → List Char
  | 0, _, l => l
  | f+1, prev, l =>
    let boundary := match prev with | none => true | some p => ¬ isWordChar p
    let att : Option (List Char × List Char) :=
      if boundary then
        match stripPrefixCI word l with
        | some (taken, rest) =>
          match rest with
          | [] => some (taken, rest)
          | c :: _ => if isWordChar c then none else some (taken, rest)
        | none => none
      else none
    match att with
    | some (taken, rest) => repl ++ wordSubGo word repl f (some (taken.getLastD ' ')) rest
    | none =>
      match l with
      | [] => []
      | c :: t => c :: wordSubGo word repl f (some c) t

def wordSubCI (s : String) (word repl : String) : String :=
  String.mk (wordSubGo word.data repl.data (s.data.length + 1) none s.data)

/-- Leftmost match of `\(([^)]+)\)` (ingredient_parser.py 74): returns
(prefix before the match, group 1, remainder after the closing paren). -/
def parenFindGo : List Char → Option (List Char × List Char)
  | [] => none
  | '(' :: t =>
    let content := t.takeWhile (fun c => c ≠ ')')
    (match t.drop content.length with
     | ')' :: after =>
       if content.isEmpty then
         match parenFindGo t with
         | some (pre, rest) => some ('(' :: pre, rest)
         | none => none
       else some ([], content ++ [')'] ++ after)
     | _ =>
       match parenFindGo t with
       | some (pre, rest) => some ('(' :: pre, rest)
       | none => none)
  | c :: t =>
    match parenFindGo t with
    | some (pre, rest) => some (c :: pre, rest)
    | none => none

/-- Decomposed paren match: `some (pre, content, after)` when the pattern
occurs, with the original string being `pre ++ "(" ++ content ++ ")" ++ after`. -/
def parenFind (l : List Char) : Option (List Char × List Char × List Char) :=
  match parenFindGo l with
  | some (pre, rest) =>
    let content := rest.takeWhile (fun c => c ≠ ')')
    some (pre, content, rest.drop (content.length + 1))
  | none => none

/-- Give-back search for a greedy `\s+` followed by `(.+)` when the maximal
whitespace run left nothing (or a newline) for `.+`: walking the run from its
end, find the first non-newline character that can start `.+`, keeping at
least one whitespace character consumed. `rev` is the reversed run, `allowed`
is `run.length - 1`. -/
def btGo : List Char → List Char → ℕ → Option (List Char)
  | [], _, _ => none
  | c :: t, acc, allowed =>
    if allowed = 0 then none
    else if c ≠ '\n' then some (c :: acc)
    else btGo t (c :: acc) (allowed - 1)

/-- Match of `\s+(.+)` at the head (`.` excludes newlines; both quantifiers
greedy, with the engine giving whitespace back to `.+` when needed).
Returns group `(.+)`. -/
def wsPlusRest (l : List Char) : Option (List Char) :=
  let run := l.takeWhile isSpaceChar
  let j := l.drop run.length
  if run.isEmpty then none
  else
    match j with
    | c :: _ =>
      if c ≠ '\n' then some (j.takeWhile (fun x => x ≠ '\n'))
      else
        (match btGo run.reverse [] (run.length - 1) with
         | some suf => some ((suf ++ j).takeWhile (fun x => x ≠ '\n'))
         | none => none)
    | [] =>
      match btGo run.reverse [] (run.length - 1) with
      | some suf => some (suf.takeWhile (fun x => x ≠ '\n'))
      | none => none

/-- `re.match(r'^(\d+)\s+(\d+/\d+)\s+(.+)', s)` (ingredient_parser.py 116):
groups 1 (whole part), 2 (fraction) and 3 (rest). -/
def mixedMatch (l : List Char) : Option (List Char × List Char × List Char) :=
  let g1 := l.takeWhile isDigitChar
  if g1.isEmpty then none
  else
    let r1 := l.drop g1.length
    let ws1 := r1.takeWhile isSpaceChar
    if ws1.isEmpty then none
    else
      let r2 := r1.drop ws1.length
      let d1 := r2.takeWhile isDigitChar
      if d1.isEmpty then none
      else
        match r2.drop d1.length with
        | '/' :: r4 =>
          let d2 := r4.takeWhile isDigitChar
          if d2.isEmpty then none
          else
            match wsPlusRest (r4.drop d2.length) with
            | some g3 => some (g1, d1 ++ '/' :: d2, g3)
            | none => none
        | _ => none

/-- `re.match(r'^(\d+/\d+)\s+(.+)', s)` (ingredient_parser.py 140):
groups 1 (fraction) and 2 (rest). -/
def simpleFractionMatch (l : List Char) : Option (List Char × List Char) :=
  let d1 := l.takeWhile isDigitChar
  if d1.isEmpty then none
  else
    match l.drop d1.length with
    | '/' :: r =>
      let d2 := r.takeWhile isDigitChar
      if d2.isEmpty then none
      else
        match wsPlusRest (r.drop d2.length) with
        | some g2 => some (d1 ++ '/' :: d2, g2)
        | none => none
    | _ => none

/-- `re.match(r'^(\d+)(\s+)(.+)', s)` (ingredient_parser.py 161):
groups 1 (number) and 3 (rest). -/
def legacyMatch (l : List Char) : Option (List Char × List Char) :=
  let g1 := l.takeWhile isDigitChar
  if g1.isEmpty then none
  else
    match wsPlusRest (l.drop g1.length) with
    | some g3 => some (g1, g3)
    | none => none

/-- Size keywords of ingredient_parser.py 186, in source order (pairwise
non-matching at a common position). -/
def sizeKws : List (List Char) :=
  ["small", "large", "medium", "qt", "quart", "pint", "pt"].map String.data

/-- `re.match(r'^(\d+(?:/\d+)?)\s+(small|large|medium|qt|quart|pint|pt)\s+(.+)',
s, re.IGNORECASE)` (ingredient_parser.py 186): groups 1 (quantity string),
2 (size, original case) and 3 (rest). The optional `/\d+` is taken exactly
when present (no productive backtracking exists, since `\s` and `/` are
disjoint). -/
def sizeMatch (l : List Char) : Option (List Char × List Char × List Char) :=
  let d1 := l.takeWhile isDigitChar
  if d1.isEmpty then none
  else
    let q : List Char × List Char :=
      match l.drop d1.length with
      | '/' :: r =>
        let d2 := r.takeWhile isDigitChar
        if d2.isEmpty then (d1, l.drop d1.length)
        else (d1 ++ '/' :: d2, r.drop d2.length)
      | r => (d1, r)
    let ws1 := q.2.takeWhile isSpaceChar
    if ws1.isEmpty then none
    else
      match firstKwCI sizeKws (q.2.drop ws1.length) with
      | some (size, r2) =>
        match wsPlusRest r2 with
        | some g3 => some (q.1, size, g3)
        | none => none
      | none => none

/-- Unit vocabulary of the 2-token standard split (ingredient_parser.py
228-235). -/
def standardUnitList : List String :=
  ["cup", "cups", "tablespoon", "tablespoons", "teaspoon", "teaspoons",
   "oz", "ounce", "ounces", "lb", "lbs", "pound", "pounds",
   "g", "gram", "grams", "kg", "kilogram", "kilograms",
   "ml", "milliliter", "milliliters", "l", "liter", "liters",
   "slice", "slices", "clove", "cloves", "piece", "pieces",
   "can", "cans", "jar", "jars", "box", "boxes", "pkg", "package", "packages",
   "container", "containers", "carton", "cartons", "bottle", "bottles",
   "qt", "quart", "quarts", "pint", "pints", "pt"]

/-- Container vocabulary of the size branch (ingredient_parser.py 197). -/
def containerUnitList : List String :=
  ["can", "jar", "box", "pkg", "package", "container", "carton"]

/-- `ingredient.strip() or original_str`. -/
def stripOrElse (ingredient original_str : String) : String :=
  if pyStrip ingredient = "" then original_str else pyStrip ingredient

/-- Parenthesis handling (ingredient_parser.py 74-111): either an early
return (`Sum.inl`), or the working string to continue with (`Sum.inr`; the
clause content is spliced back in when it carries no digit, and the string is
left unchanged when the digit-bearing clause leaves nothing else to split).
The source's `try` here catches `ValueError`/`IndexError`, but
`_parse_quantity` is total and every index is guarded, so no exception
arises. -/
def parenStep (s : String) (original_str : String) (modifier : Option String) :
    ParsedIngredient ⊕ String :=
  match parenFind s.data with
  | none => .inr s
  | some (pre, content, after) =>
    if content.any isDigitChar then
      let parts := pySplitMax (pyStrip (String.mk (pre ++ after))) 2
      if 1 ≤ parts.length then
        let quantity := parse_quantity (parts.getD 0 "")
        let ui : String × String :=
          if 2 ≤ parts.length then
            (pyStrip (String.mk content ++ " " ++ parts.getD 1 ""), parts.getD 2 "")
          else (pyStrip (String.mk content), "")
        let ing := wsCollapse ui.2
        .inl ⟨if ing = "" then original_str else ing, quantity, ui.1, modifier⟩
      else .inr s
    else
      .inr (pyReplace s ("(" ++ String.mk content ++ ")") (String.mk content))

/-- The tail of `parse_ingredient` after the mixed-fraction branch:
simple fraction (140-158), legacy two-digit fraction (161-183), size
descriptor (186-211), standard split (214-254), final fallback (257-262).
Total: every exception the source could raise here is caught by the
enclosing `try` blocks of the same branches. -/
def parse_rest (s : String) (original_str : String) (modifier : Option String) :
    ParsedIngredient :=
  match simpleFractionMatch s.data with
  | some (g1, rest) =>
    let quantity := parse_quantity (String.mk g1)
    let rest_parts := pySplitMax (String.mk rest) 1
    let unit := rest_parts.getD 0 "serving"
    let ingredient := rest_parts.getD 1 ""
    ⟨stripOrElse ingredient original_str, quantity, unit, modifier⟩
  | none =>
    let viaLegacy : Option ParsedIngredient :=
      match legacyMatch s.data with
      | some (num_str, rest) =>
        if num_str.length = 2 ∧ (num_str.getD 1 ' ' = '2' ∨ num_str.getD 1 ' ' = '4' ∨
            num_str.getD 1 ' ' = '8') then
          let numerator : ℚ := ((num_str.getD 0 ' ').toNat - 48 : ℕ)
          let denominator : ℚ := ((num_str.getD 1 ' ').toNat - 48 : ℕ)
          let quantity := numerator / denominator
          let rest_parts := pySplitMax (String.mk rest) 1
          let unit := rest_parts.getD 0 "serving"
          let ingredient := rest_parts.getD 1 ""
          some ⟨stripOrElse ingredient original_str, quantity, unit, modifier⟩
        else none
      | none => none
    match viaLegacy with
    | some p => p
    | none =>
      let viaSize : Option ParsedIngredient :=
        match sizeMatch s.data with
        | some (qstr, size, rest) =>
          let quantity := parse_quantity (String.mk qstr)
          let rest_parts := pySplitMax (String.mk rest) 1
          let ui : String × String :=
            if 1 ≤ rest_parts.length ∧
                containerUnitList.contains (pyLower (rest_parts.getD 0 "")) then
              (String.mk size ++ " " ++ rest_parts.getD 0 "", rest_parts.getD 1 "")
            else (String.mk size, String.mk rest)
          some ⟨stripOrElse ui.2 original_str, quantity, ui.1, modifier⟩
        | none => none
      match viaSize with
      | some p => p
      | none =>
        let parts := pySplitMax s 3
        if 1 ≤ parts.length then
          let quantity := parse_quantity (parts.getD 0 "")
          let ui : String × String :=
            if 3 ≤ parts.length then
              (parts.getD 1 "", String.intercalate " " (parts.drop 2))
            else if parts.length = 2 then
              (if standardUnitList.contains (pyLower (parts.getD 1 "")) then
                (parts.getD 1 "", "")
              else ("serving", parts.getD 1 ""))
            else ("serving", "")
          ⟨stripOrElse ui.2 original_str, quantity, ui.1, modifier⟩
        else ⟨original_str, 1, "serving", modifier⟩

/-- Mixed-fraction branch and onwards (ingredient_parser.py 116-262). The
`int(...)` at line 118 sits outside every `try` block, so its (impossible)
failure would propagate: group 1 is a nonempty digit run, which is what the
never-raises theorem proves. -/
def parse_after_parens (s : String) (original_str : String)
    (modifier : Option String) : Except PyErr ParsedIngredient :=
  match mixedMatch s.data with
  | some (g1, g2, g3) =>
    Except.map (fun (whole : ℤ) =>
      let fraction_val := parse_quantity (String.mk g2)
      let quantity := (whole : ℚ) + fraction_val
      let rest_parts := pySplitMax (String.mk g3) 1
      let unit := rest_parts.getD 0 "serving"
      let ingredient := rest_parts.getD 1 ""
      ⟨stripOrElse ingredient original_str, quantity, unit, modifier⟩)
      (pyIntE (String.mk g1))
  | none => .ok (parse_rest s original_str modifier)

/-- Parenthesis handling followed by the remaining branches. -/
def parse_core (s9 : String) (original_str : String) (modifier : Option String) :
    Except PyErr ParsedIngredient :=
  match parenStep s9 original_str modifier with
  | .inl p => .ok p
  | .inr s10 => parse_after_parens s10 original_str modifier

/-- `parse_ingredient` (ingredient_parser.py 8-262). -/
def parse_ingredient (ing_str : String) : Except PyErr ParsedIngredient :=
  if ing_str = "" ∨ pyStrip ing_str = "" then .ok ⟨ing_str, 1, "serving", none⟩
  else
    let original_str := ing_str
    let s1 := pyStrip ing_str
    let m := extract_modifier s1
    let s2 := subUnitDot m.2
    let s3 := subNumUpper s2
    let s4 := subToTaste s3
    let s5 := wordSubCI s4 "tbs" "Tbsp"
    let s6 := wordSubCI s5 "c" "cup"
    let s7 := wordSubCI s6 "tbsp" "tablespoon"
    let s8 := wordSubCI s7 "tsp" "teaspoon"
    let s9 := pyStrip s8
    parse_core s9 original_str m.1

/-! ## Theorems -/

/-! ### Shared evaluation lemmas for the binary64 tolerance arithmetic -/

lemma tolD_eq : tolD = mkRat 5404319552844595 36028797018963968 :=
  Rat.ext (by with_unfolding_all decide) (by with_unfolding_all decide)

lemma fsub_one_tolD : fsub 1 tolD = mkRat 7656119366529843 9007199254740992 := by
  rw [fsub, tolD_eq]
  exact Rat.ext (by with_unfolding_all decide) (by with_unfolding_all decide)

lemma fadd_one_tolD : fadd 1 tolD = mkRat 2589569785738035 2251799813685248 := by
  rw [fadd, tolD_eq]
  exact Rat.ext (by with_unfolding_all decide) (by with_unfolding_all decide)

lemma minAcc500 : fmul (intFloat 500) (fsub 1 tolD) = 425 := by
  rw [fmul, fsub_one_tolD]
  have h5 : intFloat 500 = 500 := by with_unfolding_all decide
  rw [h5]
  exact Rat.ext (by with_unfolding_all decide) (by with_unfolding_all decide)

lemma maxAcc600 : fmul (intFloat 600) (fadd 1 tolD) = 690 := by
  rw [fmul, fadd_one_tolD]
  have h6 : intFloat 600 = 600 := by with_unfolding_all decide
  rw [h6]
  exact Rat.ext (by with_unfolding_all decide) (by with_unfolding_all decide)

/-! ### C9, C4, C10: the unit converter -/

/-- C9: the unit converter returns exactly 453.6 for (1, "lb", "chicken"),
exactly 240 for (2, "cup", "flour") via the 120 g-per-cup flour-density
branch, and exactly 400 for (1, "can", "beans"). -/
theorem convert_to_grams_exact_values :
    convert_to_grams 1 "lb" "chicken" = 4536/10 ∧
    convert_to_grams 2 "cup" "flour" = 240 ∧
    convert_to_grams 1 "can" "beans" = 400 := by
  refine ⟨?_, ?_, ?_⟩ <;> with_unfolding_all decide

/-- C4: the claim (and the converter's own dead `kg` branch) expects
`to_grams(q, "kg", ..) = q * 1000`, but `"kg"` contains `"g"`, so the first
weight branch returns the quantity unchanged: at (2, "kg", "beef") the code
yields 2, not 2000. -/
theorem convert_to_grams_kg_bug :
    convert_to_grams 2 "kg" "beef" = 2 ∧ convert_to_grams 2 "kg" "beef" ≠ 2000 := by
  constructor
  · with_unfolding_all decide
  · intro h
    have h2 : convert_to_grams 2 "kg" "beef" = 2 := by with_unfolding_all decide
    rw [h2] at h
    norm_num at h

/-- C10: every unit string whose lowercase form contains the letter "g" —
including "serving" (the parser's fallback unit), "pkg" and "large" — is
treated by the converter as grams (returns the quantity unchanged), because
the weight-unit branch tests substring containment of "g"; consequently a
parser-fallback ingredient (quantity 1.0, unit "serving") contributes its
per-100g profile scaled by 1/100 in `calculate`. -/
theorem convert_to_grams_g_substring :
    (∀ (q : ℚ) (u n : String), strContains (pyLower u) "g" = true →
      convert_to_grams q u n = q) ∧
    (∀ (q : ℚ) (n : String), convert_to_grams q "serving" n = q) ∧
    (∀ (q : ℚ) (n : String), convert_to_grams q "pkg" n = q) ∧
    (∀ (q : ℚ) (n : String), convert_to_grams q "large" n = q) ∧
    (∀ (nm : String) (p : UsdaProfile) (api : String → Option UsdaProfile),
      api (clean_ingredient_name nm) = some p → p.isEmptyDict = false →
      (calculate api true ⟨[], 0⟩ [⟨nm, 1, "serving", none⟩]).1 =
        ⟨pyTrunc (p.calories.getD 0 * (1/100)), pyTrunc (p.protein.getD 0 * (1/100)),
         pyTrunc (p.carbs.getD 0 * (1/100)), pyTrunc (p.fat.getD 0 * (1/100))⟩) := by
  have main : ∀ (q : ℚ) (u n : String), strContains (pyLower u) "g" = true →
      convert_to_grams q u n = q := by
    intro q u n h
    have hul : (if u = "" then "" else pyLower u) = pyLower u := by
      by_cases hu : u = ""
      · simp [hu, pyLower]
      · simp [hu]
    simp [convert_to_grams, hul, h]
  refine ⟨main, fun q n => main q "serving" n (by decide),
    fun q n => main q "pkg" n (by decide), fun q n => main q "large" n (by decide), ?_⟩
  intro nm p api hapi hne
  have hserving : convert_to_grams 1 "serving" nm = 1 := main 1 "serving" nm (by decide)
  simp only [calculate, calculateGo, calcStep, lookup_usda, List.lookup, hapi, hne]
  simp [hserving, hne]

/-! ### C3: the calorie tolerance window -/

/-- C3 (amended): with `calorie_range = [500, 600]` and no other constraints,
the check accepts an integer calorie value iff it lies in [425, 690]; at this
instance the binary64 boundary computations are exact (500·0.85 and 600·1.15
round to exactly 425 and 690). -/
theorem calorie_window_500_600 (cal pr cb ft : ℤ) :
    (check_constraints_met ⟨cal, pr, cb, ft⟩ ⟨some (500, 600), none⟩).1 = true ↔
      (425 ≤ cal ∧ cal ≤ 690) := by
  simp only [check_constraints_met, minAcc500, maxAcc600]
  by_cases h : (425 : ℚ) ≤ (cal : ℚ) ∧ (cal : ℚ) ≤ (690 : ℚ)
  · simp only [h, not_true, if_neg, if_pos]
    simp only [List.append_nil, List.nil_append, List.length_nil]
    constructor
    · intro _
      exact ⟨by exact_mod_cast h.1, by exact_mod_cast h.2⟩
    · intro _
      rfl
  · simp only [h, not_false_iff, if_pos]
    simp only [List.singleton_append, List.length_cons]
    constructor
    · intro hfalse
      simp at hfalse
    · intro hint
      exfalso
      exact h ⟨by exact_mod_cast hint.1, by exact_mod_cast hint.2⟩

/-- C3 (counterexample to "both boundaries inclusive and exact in general"):
for `calorie_range = [100, 100]`, the value 115 = 100 × 1.15 lies inside the
claimed window yet is rejected, because in binary64 `100 * 1.15` evaluates to
114.99999999999999. -/
theorem calorie_window_boundary_not_exact :
    (check_constraints_met ⟨115, 0, 0, 0⟩ ⟨some (100, 100), none⟩).1 = false ∧
    (100 : ℚ) * (85/100) ≤ 115 ∧ (115 : ℚ) ≤ 100 * (115/100) := by
  refine ⟨by with_unfolding_all decide, by norm_num, by norm_num⟩

/-! ### C1, C2: the modification loop -/

/-- The checker's `met` flag is by construction `len(issues) == 0`. -/
lemma check_met_eq_issues_empty (n : NutritionInfo) (c : NormalizedConstraints) :
    (check_constraints_met n c).1 = ((check_constraints_met n c).2.length == 0) := rfl

/-- A loop pass entered with `constraints_met` false: invoke the agent,
recompute nutrition, re-check. -/
lemma loop_step_not_met (api : String → Option UsdaProfile) (hasKey : Bool)
    (c : NormalizedConstraints) (agent : ℕ → ModifiedRecipe) (st : LoopState) (i : ℕ)
    (h : st.met = false) :
    loop_step api hasKey c agent st i =
      ⟨some (agent i),
       (check_constraints_met (calculate api hasKey st.calcState (agent i).ingredients).1 c).1,
       (check_constraints_met (calculate api hasKey st.calcState (agent i).ingredients).1 c).2,
       (calculate api hasKey st.calcState (agent i).ingredients).1,
       (calculate api hasKey st.calcState (agent i).ingredients).2,
       st.agentCalls + 1⟩ := by
  simp [loop_step, h]

/-- A loop pass entered with `constraints_met` true is a no-op (`break`). -/
lemma loop_step_met (api : String → Option UsdaProfile) (hasKey : Bool)
    (c : NormalizedConstraints) (agent : ℕ → ModifiedRecipe) (st : LoopState) (i : ℕ)
    (h : st.met = true) :
    loop_step api hasKey c agent st i = st := by
  simp [loop_step, h]

/-- C1: for every selected recipe and constraint set, if the constraint check
on the baseline nutrition reports met=True, then `ModificationAgent.process`
performs zero agent invocations and returns a ModifiedRecipe whose
ingredients are exactly the parsed baseline ingredients and whose
modifications log is the empty list. -/
theorem process_baseline_met_returns_baseline
    (api : String → Option UsdaProfile) (hasKey : Bool) (rid title dirs : String)
    (ii : List ParsedIngredient) (c : NormalizedConstraints)
    (agent : ℕ → ModifiedRecipe) (st0 : CalcState)
    (h : (check_constraints_met (calculate api hasKey st0 ii).1 c).1 = true) :
    (process_model api hasKey rid title dirs ii c agent st0).agentCalls = 0 ∧
    (process_model api hasKey rid title dirs ii c agent st0).finalRecipe.ingredients = ii ∧
    (process_model api hasKey rid title dirs ii c agent st0).finalRecipe.modifications = [] := by
  have hb : (process_baseline api hasKey st0 ii c).met = true := h
  have hfin : loop_after api hasKey c agent (process_baseline api hasKey st0 ii c)
      max_iterations = process_baseline api hasKey st0 ii c := by
    show List.foldl _ _ [1, 2, 3] = _
    rw [List.foldl_cons, loop_step_met _ _ _ _ _ _ hb,
        List.foldl_cons, loop_step_met _ _ _ _ _ _ hb,
        List.foldl_cons, loop_step_met _ _ _ _ _ _ hb, List.foldl_nil]
  refine ⟨?_, ?_, ?_⟩ <;>
    · simp only [process_model]
      rw [hfin]
      simp [process_baseline]

/-- C2: for every run in which the constraint check never reports met=True
(baseline check false and each of the three iteration checks false), the
loop invokes the Recipe Editor exactly `max_iterations = 3` times and
returns the ModifiedRecipe produced by the last invocation (not the
baseline) together with a non-empty issues list. -/
theorem process_never_met_exhausts_iterations
    (api : String → Option UsdaProfile) (hasKey : Bool) (rid title dirs : String)
    (ii : List ParsedIngredient) (c : NormalizedConstraints)
    (agent : ℕ → ModifiedRecipe) (st0 : CalcState)
    (h0 : (process_baseline api hasKey st0 ii c).met = false)
    (h1 : (loop_after api hasKey c agent (process_baseline api hasKey st0 ii c) 1).met = false)
    (h2 : (loop_after api hasKey c agent (process_baseline api hasKey st0 ii c) 2).met = false)
    (h3 : (loop_after api hasKey c agent (process_baseline api hasKey st0 ii c) 3).met = false) :
    (process_model api hasKey rid title dirs ii c agent st0).agentCalls = 3 ∧
    (process_model api hasKey rid title dirs ii c agent st0).finalRecipe = agent 3 ∧
    (process_model api hasKey rid title dirs ii c agent st0).issues ≠ [] := by
  have e1 : loop_after api hasKey c agent (process_baseline api hasKey st0 ii c) 1 =
      loop_step api hasKey c agent (process_baseline api hasKey st0 ii c) 1 := rfl
  have e2 : loop_after api hasKey c agent (process_baseline api hasKey st0 ii c) 2 =
      loop_step api hasKey c agent
        (loop_step api hasKey c agent (process_baseline api hasKey st0 ii c) 1) 2 := rfl
  have e3 : loop_after api hasKey c agent (process_baseline api hasKey st0 ii c) 3 =
      loop_step api hasKey c agent (loop_step api hasKey c agent
        (loop_step api hasKey c agent (process_baseline api hasKey st0 ii c) 1) 2) 3 := rfl
  rw [e1] at h1
  rw [e2] at h2
  rw [e3] at h3
  have hfin : loop_after api hasKey c agent (process_baseline api hasKey st0 ii c)
      max_iterations = loop_step api hasKey c agent (loop_step api hasKey c agent
        (loop_step api hasKey c agent (process_baseline api hasKey st0 ii c) 1) 2) 3 := rfl
  have hcalls0 : (process_baseline api hasKey st0 ii c).agentCalls = 0 := rfl
  -- peel the three passes
  rw [loop_step_not_met _ _ _ _ _ _ h0] at h1 h2 h3 hfin
  rw [loop_step_not_met _ _ _ _ _ _ h1] at h2 h3 hfin
  rw [loop_step_not_met _ _ _ _ _ _ h2] at h3 hfin
  refine ⟨?_, ?_, ?_⟩
  · simp [process_model, hfin, hcalls0]
  · simp [process_model, hfin]
  · simp only [process_model, hfin]
    rw [check_met_eq_issues_empty] at h3
    simp only [beq_iff_eq] at h3
    intro hempty
    simp only [hempty] at h3
    simp at h3

/-- Witness for C1: with no constraints at all the baseline check passes,
and the loop performs zero agent invocations. -/
theorem process_baseline_met_returns_baseline_witness :
    ((check_constraints_met (calculate (fun _ => none) true ⟨[], 0⟩ []).1
        ⟨none, none⟩).1 = true) ∧
    ((process_model (fun _ => none) true "r1" "t" "d" [] ⟨none, none⟩
        (fun _ => ⟨"r1", "t", [], "d", ["swap"], "x"⟩) ⟨[], 0⟩).agentCalls = 0 ∧
     (process_model (fun _ => none) true "r1" "t" "d" [] ⟨none, none⟩
        (fun _ => ⟨"r1", "t", [], "d", ["swap"], "x"⟩) ⟨[], 0⟩).finalRecipe.ingredients = [] ∧
     (process_model (fun _ => none) true "r1" "t" "d" [] ⟨none, none⟩
        (fun _ => ⟨"r1", "t", [], "d", ["swap"], "x"⟩) ⟨[], 0⟩).finalRecipe.modifications = []) :=
  ⟨by with_unfolding_all decide,
   process_baseline_met_returns_baseline (fun _ => none) true "r1" "t" "d" [] ⟨none, none⟩
     (fun _ => ⟨"r1", "t", [], "d", ["swap"], "x"⟩) ⟨[], 0⟩ (by with_unfolding_all decide)⟩

/-- Witness for C2: an unsatisfiable run (the nutrition API always fails, so
every nutrition is zero and the 500-600 calorie constraint never holds):
exactly 3 agent invocations, the third agent output, non-empty issues. -/
theorem process_never_met_exhausts_iterations_witness :
    ((process_baseline (fun _ => none) true ⟨[], 0⟩ [] ⟨some (500, 600), none⟩).met = false) ∧
    ((process_model (fun _ => none) true "r1" "t" "d" [] ⟨some (500, 600), none⟩
        (fun _ => ⟨"r1", "t", [], "d", ["swap"], "x"⟩) ⟨[], 0⟩).agentCalls = 3 ∧
     (process_model (fun _ => none) true "r1" "t" "d" [] ⟨some (500, 600), none⟩
        (fun _ => ⟨"r1", "t", [], "d", ["swap"], "x"⟩) ⟨[], 0⟩).finalRecipe =
        ⟨"r1", "t", [], "d", ["swap"], "x"⟩ ∧
     (process_model (fun _ => none) true "r1" "t" "d" [] ⟨some (500, 600), none⟩
        (fun _ => ⟨"r1", "t", [], "d", ["swap"], "x"⟩) ⟨[], 0⟩).issues ≠ []) :=
  ⟨by with_unfolding_all decide,
   process_never_met_exhausts_iterations (fun _ => none) true "r1" "t" "d" []
     ⟨some (500, 600), none⟩ (fun _ => ⟨"r1", "t", [], "d", ["swap"], "x"⟩) ⟨[], 0⟩
     (by with_unfolding_all decide) (by with_unfolding_all decide)
     (by with_unfolding_all decide) (by with_unfolding_all decide)⟩


/-! ### C5, C6: the ingredient parser -/

lemma all_takeWhile (p : Char → Bool) (l : List Char) : (l.takeWhile p).all p = true := by
  induction l with
  | nil => rfl
  | cons c t ih =>
    by_cases hc : p c
    · simp [List.takeWhile_cons, hc, ih]
    · simp [List.takeWhile_cons, hc]

lemma digit_not_space {c : Char} (h : isDigitChar c = true) : isSpaceChar c = false := by
  unfold isDigitChar at h
  unfold isSpaceChar
  simp only [decide_eq_true_eq] at h
  exact decide_eq_false (by omega)

lemma dropWhile_space_digits (l : List Char) (hd : l.all isDigitChar = true) :
    l.dropWhile isSpaceChar = l := by
  cases l with
  | nil => rfl
  | cons c t =>
    simp only [List.all_cons, Bool.and_eq_true] at hd
    simp [List.dropWhile_cons, digit_not_space hd.1]

lemma strip_digits (l : List Char) (hd : l.all isDigitChar = true) :
    stripRight (stripLeft l) = l := by
  rw [stripLeft, dropWhile_space_digits l hd, stripRight,
    dropWhile_space_digits l.reverse (by simpa using hd)]
  exact List.reverse_reverse l

lemma pySign_digits (l : List Char) (hne : l ≠ []) (hd : l.all isDigitChar = true) :
    pySign l = (1, l) := by
  cases l with
  | nil => exact absurd rfl hne
  | cons c t =>
    simp only [List.all_cons, Bool.and_eq_true] at hd
    have h1 := hd.1
    simp only [isDigitChar, Bool.decide_and, Bool.and_eq_true, decide_eq_true_eq] at h1
    have hplus : c ≠ '+' := by
      intro hc
      rw [hc] at h1
      exact absurd h1 (by decide)
    have hminus : c ≠ '-' := by
      intro hc
      rw [hc] at h1
      exact absurd h1 (by decide)
    simp [pySign, hplus, hminus]

lemma pyIntE_digits_ok (l : List Char) (hne : l ≠ [])
    (hd : l.all isDigitChar = true) : pyIntE (String.mk l) = .ok (digitsVal l : ℤ) := by
  have h0 : pyIntE (String.mk l) =
      (let p := pySign l;
       if ¬ p.2.isEmpty ∧ p.2.all isDigitChar then Except.ok (p.1 * (digitsVal p.2 : ℤ))
       else .error .valueError) := by
    unfold pyIntE
    rw [show (String.mk l).data = l from rfl, strip_digits l hd]
  rw [h0, pySign_digits l hne hd]
  simp [hne, hd]

lemma mixedMatch_g1 (l a b c' : List Char) (h : mixedMatch l = some (a, b, c')) :
    a = l.takeWhile isDigitChar ∧ a ≠ [] := by
  simp only [mixedMatch] at h
  repeat' split at h
  all_goals simp_all [List.takeWhile_eq_nil_iff]
  rcases h with ⟨h1, h2⟩
  subst h1
  rw [List.takeWhile_eq_nil_iff]
  simp only [not_forall, not_not]
  assumption

/-- The mixed-fraction branch never lets its `int(..)` escape: group 1 is a
nonempty digit run. -/
lemma parse_after_parens_ok (s original_str : String) (modifier : Option String) :
    ∃ p, parse_after_parens s original_str modifier = .ok p := by
  unfold parse_after_parens
  cases hm : mixedMatch s.data with
  | none => exact ⟨_, rfl⟩
  | some g =>
    obtain ⟨a, b, c'⟩ := g
    obtain ⟨ha, hne⟩ := mixedMatch_g1 s.data a b c' hm
    have hdig : a.all isDigitChar = true := by
      rw [ha]; exact all_takeWhile _ _
    have hok := pyIntE_digits_ok a hne hdig
    change ∃ p, Except.map _ (pyIntE (String.mk a)) = Except.ok p
    rw [hok]
    exact ⟨_, rfl⟩

lemma parse_core_ok (s original_str : String) (modifier : Option String) :
    ∃ p, parse_core s original_str modifier = .ok p := by
  unfold parse_core
  cases hp : parenStep s original_str modifier with
  | inl p => exact ⟨p, rfl⟩
  | inr s10 => exact parse_after_parens_ok s10 original_str modifier

/-- C5 (amended): for every string input, including the empty string,
`parse_ingredient` terminates without raising an exception and returns a
fully populated ParsedIngredient (the quantity is, however, not guaranteed
strictly positive: an explicit nonpositive quantity token is parsed as-is). -/
theorem parse_ingredient_never_raises (s : String) :
    ∃ p, parse_ingredient s = .ok p := by
  unfold parse_ingredient
  by_cases h0 : s = "" ∨ pyStrip s = ""
  · rw [if_pos h0]
    exact ⟨_, rfl⟩
  · rw [if_neg h0]
    exact parse_core_ok _ _ _

/-- Witness for C5 (amended): the theorem applied to a concrete string. -/
theorem parse_ingredient_never_raises_witness :
    ∃ p, parse_ingredient "2 cups flour" = .ok p :=
  parse_ingredient_never_raises "2 cups flour"

/-- C5 (counterexample): it is not the case that every parsed quantity is
strictly positive — "0 cups flour" parses with quantity 0 (and no exception). -/
theorem parse_ingredient_quantity_not_positive :
    ¬ (∀ (s : String) (p : ParsedIngredient), parse_ingredient s = .ok p → 0 < p.quantity) := by
  intro hall
  have h := hall "0 cups flour" ⟨"flour", 0, "cups", none⟩ (by with_unfolding_all decide)
  norm_num at h

/-- C6 (amended): `parse("2 1/2 cups flour")` returns quantity 2.5,
unit `"cups"` (the raw token: the abbreviation subs normalise only
standalone `c`/`tbs`/`tbsp`/`tsp` tokens) and ingredient `"flour"`. -/
theorem parse_mixed_fraction_value :
    parse_ingredient "2 1/2 cups flour" = .ok ⟨"flour", 5/2, "cups", none⟩ := by
  with_unfolding_all decide

/-- C6 (counterexample): the unit returned for "2 1/2 cups flour" is not the
normalised "cup" the claim states. -/
theorem parse_mixed_fraction_unit_not_cup :
    (parse_ingredient "2 1/2 cups flour").map ParsedIngredient.unit ≠ .ok "cup" := by
  with_unfolding_all decide

/-! ### C8: non-negativity of calculated nutrition -/

lemma pyTrunc_nonneg {q : ℚ} (h : 0 ≤ q) : 0 ≤ pyTrunc q := by
  unfold pyTrunc
  rw [if_pos h]
  exact Int.floor_nonneg.mpr h

lemma qite_nonneg {c : Prop} [Decidable c] {a b : ℚ} (ha : 0 ≤ a) (hb : 0 ≤ b) :
    0 ≤ if c then a else b := by
  by_cases hc : c
  · rwa [if_pos hc]
  · rwa [if_neg hc]

lemma prop_ite {α : Type} (P : α → Prop) (c : Prop) [Decidable c] (x y : α)
    (hx : P x) (hy : P y) : P (if c then x else y) := by
  by_cases hc : c
  · rwa [if_pos hc]
  · rwa [if_neg hc]

set_option maxHeartbeats 3200000 in
lemma convert_to_grams_nonneg (q : ℚ) (u n : String) (h : 0 ≤ q) :
    0 ≤ convert_to_grams q u n := by
  simp only [convert_to_grams]
  repeat'
    first
      | apply qite_nonneg
      | exact h
      | exact mul_nonneg h (by norm_num)

lemma lookup_mem {k : String} {v : UsdaProfile} :
    ∀ {l : List (String × UsdaProfile)}, l.lookup k = some v → (k, v) ∈ l := by
  intro l
  induction l with
  | nil => intro h; simp [List.lookup] at h
  | cons kv t ih =>
    intro h
    obtain ⟨k', v'⟩ := kv
    rw [List.lookup] at h
    cases hbeq : (k == k') with
    | true =>
      rw [hbeq] at h
      simp only [] at h
      injection h with hv
      have hk : k = k' := by simpa using hbeq
      subst hk hv
      exact List.mem_cons_self _ _
    | false =>
      rw [hbeq] at h
      simp only [] at h
      exact List.mem_cons_of_mem _ (ih h)

/-- `_lookup_usda` preserves the cache non-negativity invariant and returns
only non-negative profiles under it. -/
lemma lookup_usda_nonneg (api : String → Option UsdaProfile) (hasKey : Bool)
    (st : CalcState) (name : String)
    (hapi : ∀ n p, api n = some p → profNonneg p)
    (hcache : ∀ kp ∈ st.cache, profNonneg kp.2) :
    (∀ p, (lookup_usda api hasKey st name).1 = some p → profNonneg p) ∧
    (∀ kp ∈ (lookup_usda api hasKey st name).2.cache, profNonneg kp.2) := by
  unfold lookup_usda
  cases hl : st.cache.lookup (pyStrip (pyLower name)) with
  | some v =>
    refine ⟨?_, ?_⟩
    · intro p hp
      simp only [hl] at hp
      injection hp with hpv
      subst hpv
      exact hcache _ (lookup_mem hl)
    · intro kp hkp
      simp only [hl] at hkp
      exact hcache kp hkp
  | none =>
    by_cases hk : hasKey
    · cases ha : api (clean_ingredient_name name) with
      | none =>
        refine ⟨?_, ?_⟩
        · intro p hp
          simp [hl, hk, ha] at hp
        · intro kp hkp
          simp only [hl, hk, ha] at hkp
          simp at hkp
          exact hcache kp hkp
      | some prof =>
        have hprof := hapi _ _ ha
        refine ⟨?_, ?_⟩
        · intro p hp
          simp only [hl, hk, ha] at hp
          simp at hp
          subst hp
          exact hprof
        · intro kp hkp
          simp only [hl, hk, ha] at hkp
          simp at hkp
          rcases hkp with hkp | hkp
          · rw [hkp]
            exact hprof
          · exact hcache kp hkp
    · refine ⟨?_, ?_⟩
      · intro p hp
        simp [hl, hk] at hp
      · intro kp hkp
        simp only [hl, hk] at hkp
        simp at hkp
        exact hcache kp hkp

/-- The state component of one loop step is the state produced by the
lookup: the totals do not feed back into the cache or call counter. -/
lemma calcStep_state (ing : ParsedIngredient) (r : Option UsdaProfile × CalcState)
    (tc tp tcb tf : ℚ) : (calcStep ing r tc tp tcb tf).1 = r.2 := by
  obtain ⟨res, st'⟩ := r
  cases res with
  | none => rfl
  | some usda =>
    exact prop_ite (fun (z : CalcState × ℚ × ℚ × ℚ × ℚ) => z.1 = st') _ _ _ rfl rfl

/-- One loop step preserves non-negativity of the four running totals, given
a non-negative quantity and a non-negative looked-up profile. -/
lemma calcStep_totals_nonneg (ing : ParsedIngredient) (r : Option UsdaProfile × CalcState)
    (tc tp tcb tf : ℚ)
    (hqi : 0 ≤ ing.quantity)
    (hprof : ∀ p, r.1 = some p → profNonneg p)
    (h1 : 0 ≤ tc) (h2 : 0 ≤ tp) (h3 : 0 ≤ tcb) (h4 : 0 ≤ tf) :
    0 ≤ (calcStep ing r tc tp tcb tf).2.1 ∧
    0 ≤ (calcStep ing r tc tp tcb tf).2.2.1 ∧
    0 ≤ (calcStep ing r tc tp tcb tf).2.2.2.1 ∧
    0 ≤ (calcStep ing r tc tp tcb tf).2.2.2.2 := by
  obtain ⟨res, st'⟩ := r
  cases res with
  | none => exact ⟨h1, h2, h3, h4⟩
  | some usda =>
    have husda := hprof usda rfl
    have hscale : 0 ≤ (if (if ing.unit = "" then "" else pyLower ing.unit) = "g" ∨
        (if ing.unit = "" then "" else pyLower ing.unit) = "gram" ∨
        (if ing.unit = "" then "" else pyLower ing.unit) = "grams"
      then ing.quantity / 100
      else convert_to_grams ing.quantity ing.unit ing.ingredient / 100) :=
      qite_nonneg (div_nonneg hqi (by norm_num))
        (div_nonneg (convert_to_grams_nonneg ing.quantity ing.unit ing.ingredient hqi)
          (by norm_num))
    refine prop_ite
      (fun (z : CalcState × ℚ × ℚ × ℚ × ℚ) =>
        0 ≤ z.2.1 ∧ 0 ≤ z.2.2.1 ∧ 0 ≤ z.2.2.2.1 ∧ 0 ≤ z.2.2.2.2)
      _ _ _ ?_ ?_
    · exact ⟨h1, h2, h3, h4⟩
    · exact ⟨add_nonneg h1 (mul_nonneg husda.1 hscale),
        add_nonneg h2 (mul_nonneg husda.2.1 hscale),
        add_nonneg h3 (mul_nonneg husda.2.2.1 hscale),
        add_nonneg h4 (mul_nonneg husda.2.2.2 hscale)⟩

lemma calculateGo_nonneg (api : String → Option UsdaProfile) (hasKey : Bool)
    (hapi : ∀ n p, api n = some p → profNonneg p) :
    ∀ (ings : List ParsedIngredient) (st : CalcState) (tc tp tcb tf : ℚ),
    (∀ ing ∈ ings, 0 ≤ ing.quantity) →
    (∀ kp ∈ st.cache, profNonneg kp.2) →
    0 ≤ tc → 0 ≤ tp → 0 ≤ tcb → 0 ≤ tf →
    0 ≤ (calculateGo api hasKey ings st tc tp tcb tf).1.calories ∧
    0 ≤ (calculateGo api hasKey ings st tc tp tcb tf).1.protein ∧
    0 ≤ (calculateGo api hasKey ings st tc tp tcb tf).1.carbs ∧
    0 ≤ (calculateGo api hasKey ings st tc tp tcb tf).1.fat := by
  intro ings
  induction ings with
  | nil =>
    intro st tc tp tcb tf _ _ h1 h2 h3 h4
    exact ⟨pyTrunc_nonneg h1, pyTrunc_nonneg h2, pyTrunc_nonneg h3, pyTrunc_nonneg h4⟩
  | cons ing rest ih =>
    intro st tc tp tcb tf hq hcache h1 h2 h3 h4
    have hqrest : ∀ i ∈ rest, 0 ≤ i.quantity := fun i hi => hq i (List.mem_cons_of_mem _ hi)
    have hqi : 0 ≤ ing.quantity := hq ing (List.mem_cons_self _ _)
    have hlk := lookup_usda_nonneg api hasKey st ing.ingredient hapi hcache
    have htot := calcStep_totals_nonneg ing (lookup_usda api hasKey st ing.ingredient)
      tc tp tcb tf hqi hlk.1 h1 h2 h3 h4
    simp only [calculateGo]
    refine ih _ _ _ _ _ hqrest ?_ htot.1 htot.2.1 htot.2.2.1 htot.2.2.2
    rw [calcStep_state]
    exact hlk.2

/-- C8: for every ingredient list with non-negative quantities and every
profile source returning non-negative per-100g values, every field of the
NutritionInfo returned by `calculate` is a non-negative integer (the final
totals being `int()`-truncated). -/
theorem calculate_fields_nonneg (api : String → Option UsdaProfile) (hasKey : Bool)
    (st : CalcState) (ings : List ParsedIngredient)
    (hq : ∀ ing ∈ ings, 0 ≤ ing.quantity)
    (hapi : ∀ n p, api n = some p → profNonneg p)
    (hcache : ∀ kp ∈ st.cache, profNonneg kp.2) :
    0 ≤ (calculate api hasKey st ings).1.calories ∧
    0 ≤ (calculate api hasKey st ings).1.protein ∧
    0 ≤ (calculate api hasKey st ings).1.carbs ∧
    0 ≤ (calculate api hasKey st ings).1.fat :=
  calculateGo_nonneg api hasKey hapi ings st 0 0 0 0 hq hcache le_rfl le_rfl le_rfl le_rfl

/-- Witness for C8 at a concrete ingredient list and profile source. -/
theorem calculate_fields_nonneg_witness :
    ((∀ ing ∈ [(⟨"flour", 2, "cup", none⟩ : ParsedIngredient)], 0 ≤ ing.quantity) ∧
     (∀ (n : String) (p : UsdaProfile),
        (fun (_ : String) => some (⟨some 364, some 10, some 76, some 1⟩ : UsdaProfile)) n =
          some p → profNonneg p)) ∧
    (0 ≤ (calculate (fun _ => some ⟨some 364, some 10, some 76, some 1⟩) true ⟨[], 0⟩
        [⟨"flour", 2, "cup", none⟩]).1.calories ∧
     0 ≤ (calculate (fun _ => some ⟨some 364, some 10, some 76, some 1⟩) true ⟨[], 0⟩
        [⟨"flour", 2, "cup", none⟩]).1.protein ∧
     0 ≤ (calculate (fun _ => some ⟨some 364, some 10, some 76, some 1⟩) true ⟨[], 0⟩
        [⟨"flour", 2, "cup", none⟩]).1.carbs ∧
     0 ≤ (calculate (fun _ => some ⟨some 364, some 10, some 76, some 1⟩) true ⟨[], 0⟩
        [⟨"flour", 2, "cup", none⟩]).1.fat) :=
  ⟨⟨by intro ing hi; simp at hi; rw [hi]; norm_num,
    by intro n p h; injection h with h; rw [← h]; decide⟩,
   calculate_fields_nonneg (fun _ => some ⟨some 364, some 10, some 76, some 1⟩) true ⟨[], 0⟩
     [⟨"flour", 2, "cup", none⟩]
     (by intro ing hi; simp at hi; rw [hi]; norm_num)
     (by intro n p h; injection h with h; rw [← h]; decide)
     (by intro kp hkp; simp at hkp)⟩

/-! ### C7: cache deduplication of external lookups -/

/-- A cache lookup misses iff the key is absent from the cache's key list. -/
lemma lookup_eq_none_iff : ∀ (l : List (String × UsdaProfile)) (k : String),
    l.lookup k = none ↔ k ∉ l.map Prod.fst := by
  intro l k
  induction l with
  | nil => simp [List.lookup]
  | cons kv rest ih =>
    obtain ⟨k', v'⟩ := kv
    rw [List.lookup]
    cases hbeq : (k == k') with
    | true =>
      have hk : k = k' := by simpa using hbeq
      subst hk
      simp
    | false =>
      have hk : k ≠ k' := by simpa using hbeq
      simp only []
      simp [hk, ih]

/-- `_lookup_usda` on a cache hit leaves the state untouched: no external
request, no new cache entry. -/
lemma lookup_usda_hit_snd (api : String → Option UsdaProfile) (hk : Bool)
    (st : CalcState) (name : String) (v : UsdaProfile)
    (h : st.cache.lookup (pyStrip (pyLower name)) = some v) :
    (lookup_usda api hk st name).2 = st := by
  simp only [lookup_usda]
  rw [h]

/-- `_lookup_usda` on a cache miss with a successful API response issues one
external request and caches the profile under the lowercased/stripped key. -/
lemma lookup_usda_miss_snd (api : String → Option UsdaProfile)
    (st : CalcState) (name : String) (p : UsdaProfile)
    (h : st.cache.lookup (pyStrip (pyLower name)) = none)
    (ha : api (clean_ingredient_name name) = some p) :
    (lookup_usda api true st name).2 =
      ⟨(pyStrip (pyLower name), p) :: st.cache, st.calls + 1⟩ := by
  simp only [lookup_usda]
  rw [h, ha]
  simp

/-- The final calculator state does not depend on the running totals. -/
lemma calculateGo_snd (api : String → Option UsdaProfile) (hk : Bool) :
    ∀ (ings : List ParsedIngredient) (st : CalcState) (tc tp tcb tf : ℚ),
    (calculateGo api hk ings st tc tp tcb tf).2 = stateAfter api hk st ings := by
  intro ings
  induction ings with
  | nil => intro st tc tp tcb tf; rfl
  | cons ing rest ih =>
    intro st tc tp tcb tf
    show _ = (calculateGo api hk (ing :: rest) st 0 0 0 0).2
    simp only [calculateGo]
    rw [calcStep_state, calcStep_state]
    exact (ih _ _ _ _ _).trans (ih _ _ _ _ _).symm

/-- Unfolding the calculator state one ingredient at a time. -/
lemma stateAfter_cons (api : String → Option UsdaProfile) (hk : Bool)
    (st : CalcState) (ing : ParsedIngredient) (rest : List ParsedIngredient) :
    stateAfter api hk st (ing :: rest) =
      stateAfter api hk (lookup_usda api hk st ing.ingredient).2 rest := by
  show (calculateGo api hk (ing :: rest) st 0 0 0 0).2 = _
  simp only [calculateGo]
  rw [calcStep_state]
  exact calculateGo_snd api hk rest _ _ _ _ _

/-- Central cache invariant of a `calculate` pass, assuming every API lookup
succeeds: the call counter grows by exactly one per ingredient key not
already cached (first occurrence), and the resulting cache keys are the old
ones plus the ingredient keys. -/
lemma stateAfter_spec (api : String → Option UsdaProfile) :
    ∀ (ings : List ParsedIngredient) (st : CalcState),
    (∀ ing ∈ ings, (api (clean_ingredient_name ing.ingredient)).isSome = true) →
    (stateAfter api true st ings).calls
      = st.calls + newCount (ings.map keyOf) (st.cache.map Prod.fst) ∧
    ∀ k, k ∈ (stateAfter api true st ings).cache.map Prod.fst ↔
      (k ∈ ings.map keyOf ∨ k ∈ st.cache.map Prod.fst) := by
  intro ings
  induction ings with
  | nil =>
    intro st _
    constructor
    · simp [stateAfter, calculateGo, newCount]
    · intro k
      simp [stateAfter, calculateGo]
  | cons ing rest ih =>
    intro st hsucc
    have hsucc' : ∀ i ∈ rest, (api (clean_ingredient_name i.ingredient)).isSome = true :=
      fun i hi => hsucc i (List.mem_cons_of_mem _ hi)
    rw [stateAfter_cons]
    by_cases hmem : keyOf ing ∈ st.cache.map Prod.fst
    · -- cache hit: state is unchanged, no new call
      obtain ⟨v, hl⟩ : ∃ v, st.cache.lookup (keyOf ing) = some v := by
        cases hl : st.cache.lookup (keyOf ing) with
        | some v => exact ⟨v, rfl⟩
        | none => exact absurd ((lookup_eq_none_iff _ _).mp hl) (not_not_intro hmem)
      rw [lookup_usda_hit_snd api true st ing.ingredient v hl]
      have ihst := ih st hsucc'
      constructor
      · rw [ihst.1]
        simp only [List.map_cons, newCount]
        rw [if_pos hmem]
      · intro k
        rw [(ihst.2 k)]
        simp only [List.map_cons, List.mem_cons]
        constructor
        · rintro (h | h)
          · exact Or.inl (Or.inr h)
          · exact Or.inr h
        · rintro ((rfl | h) | h)
          · exact Or.inr hmem
          · exact Or.inl h
          · exact Or.inr h
    · -- cache miss: the (assumed successful) lookup issues one call and
      -- prepends the key
      have hl : st.cache.lookup (keyOf ing) = none := (lookup_eq_none_iff _ _).mpr hmem
      obtain ⟨p, hp⟩ := Option.isSome_iff_exists.mp (hsucc ing (List.mem_cons_self _ _))
      have hlu : (lookup_usda api true st ing.ingredient).2
          = ⟨(keyOf ing, p) :: st.cache, st.calls + 1⟩ :=
        lookup_usda_miss_snd api st ing.ingredient p hl hp
      rw [hlu]
      have ih' := ih ⟨(keyOf ing, p) :: st.cache, st.calls + 1⟩ hsucc'
      have hc' : (⟨(keyOf ing, p) :: st.cache, st.calls + 1⟩ : CalcState).calls
          = st.calls + 1 := rfl
      have hk' : ((⟨(keyOf ing, p) :: st.cache, st.calls + 1⟩ : CalcState).cache).map Prod.fst
          = keyOf ing :: st.cache.map Prod.fst := rfl
      rw [hc', hk'] at ih'
      constructor
      · rw [ih'.1]
        simp only [List.map_cons, newCount]
        rw [if_neg hmem]
        omega
      · intro k
        rw [(ih'.2 k)]
        simp only [List.map_cons, List.mem_cons]
        constructor
        · rintro (h | (rfl | h))
          · exact Or.inl (Or.inr h)
          · exact Or.inl (Or.inl rfl)
          · exact Or.inr h
        · rintro ((rfl | h) | h)
          · exact Or.inr (Or.inl rfl)
          · exact Or.inl h
          · exact Or.inr (Or.inr h)

/-- No key that is already seen triggers a call. -/
lemma newCount_zero : ∀ (ks seen : List String), (∀ k ∈ ks, k ∈ seen) →
    newCount ks seen = 0 := by
  intro ks
  induction ks with
  | nil => intro seen _; rfl
  | cons k rest ih =>
    intro seen h
    simp only [newCount]
    rw [if_pos (h k (List.mem_cons_self _ _))]
    exact ih seen (fun x hx => h x (List.mem_cons_of_mem _ hx))

/-- Removing the single occurrence of a kept element from a duplicate-free
list drops the filtered length by one. -/
lemma filter_length_split (k : String) (P : String → Bool) :
    ∀ (l : List String), l.Nodup → k ∈ l → P k = true →
    (l.filter P).length = (l.filter (fun x => P x && !(x == k))).length + 1 := by
  intro l
  induction l with
  | nil => intro _ hk _; cases hk
  | cons a t ih =>
    intro hnd hk hPk
    rcases List.mem_cons.mp hk with rfl | hkt
    · have hknt : k ∉ t := (List.nodup_cons.mp hnd).1
      have hcong : ∀ x ∈ t, P x = (P x && !(x == k)) := by
        intro x hx
        have hxk : (x == k) = false := by
          simp only [beq_eq_false_iff_ne]
          rintro rfl
          exact hknt hx
        simp [hxk]
      rw [List.filter_cons, List.filter_cons, if_pos hPk,
        if_neg (by simp : ¬ ((P k && !(k == k)) = true)), List.length_cons,
        List.filter_congr hcong]
    · have hank : (a == k) = false := by
        simp only [beq_eq_false_iff_ne]
        rintro rfl
        exact (List.nodup_cons.mp hnd).1 hkt
      have iht := ih (List.nodup_cons.mp hnd).2 hkt hPk
      cases hPa : P a
      · rw [List.filter_cons, List.filter_cons, if_neg (by simp [hPa]),
          if_neg (by simp [hPa])]
        exact iht
      · rw [List.filter_cons, List.filter_cons, if_pos hPa,
          if_pos (by simp [hPa, hank]), List.length_cons, List.length_cons, iht]

/-- `newCount` counts the distinct keys not yet seen. -/
lemma newCount_filter : ∀ (ks seen : List String),
    newCount ks seen = (ks.dedup.filter (fun k => !decide (k ∈ seen))).length := by
  intro ks
  induction ks with
  | nil => intro seen; rfl
  | cons k rest ih =>
    intro seen
    simp only [newCount]
    by_cases hks : k ∈ seen
    · rw [if_pos hks, ih]
      by_cases hmem : k ∈ rest
      · rw [List.dedup_cons_of_mem hmem]
      · rw [List.dedup_cons_of_not_mem hmem, List.filter_cons,
          if_neg (by simp [hks])]
    · rw [if_neg hks, ih]
      by_cases hmem : k ∈ rest
      · rw [List.dedup_cons_of_mem hmem]
        have hsplit := filter_length_split k (fun x => !decide (x ∈ seen))
          rest.dedup (List.nodup_dedup rest) (List.mem_dedup.mpr hmem)
          (by simp [hks])
        rw [hsplit]
        have hcong : ∀ x ∈ rest.dedup,
            ((fun x => !decide (x ∈ seen)) x && !(x == k))
              = (!decide (x ∈ k :: seen)) := by
          intro x _
          by_cases h1 : x = k <;> by_cases h2 : x ∈ seen <;> simp [h1, h2]
        rw [List.filter_congr hcong]
        omega
      · rw [List.dedup_cons_of_not_mem hmem, List.filter_cons,
          if_pos (by simp [hks]), List.length_cons]
        have hcong : ∀ x ∈ rest.dedup,
            (!decide (x ∈ k :: seen)) = (!decide (x ∈ seen)) := by
          intro x hx
          have hxk : x ≠ k := by
            rintro rfl
            exact hmem (List.mem_dedup.mp hx)
          simp [List.mem_cons, hxk]
        rw [List.filter_congr hcong]
        omega

/-- With nothing seen yet, `newCount` is the number of distinct keys. -/
lemma newCount_nil_seen (ks : List String) :
    newCount ks [] = ks.dedup.length := by
  rw [newCount_filter]
  have hcong : ∀ x ∈ ks.dedup, (!decide (x ∈ ([] : List String))) = true := by
    intro x _
    simp
  rw [List.filter_congr hcong, List.filter_true]

/-- C7: starting from a fresh calculator, one `calculate` pass over an
ingredient list whose API lookups all succeed issues exactly one external
lookup per distinct (lowercased, trimmed) ingredient name; a second
`calculate` pass on the same instance with the identical list is served
entirely from the cache and issues zero further external calls. -/
theorem calculate_cache_dedup (api : String → Option UsdaProfile)
    (L : List ParsedIngredient)
    (hsucc : ∀ ing ∈ L, (api (clean_ingredient_name ing.ingredient)).isSome = true) :
    (calculate api true ⟨[], 0⟩ L).2.calls = (L.map keyOf).dedup.length ∧
    (calculate api true (calculate api true ⟨[], 0⟩ L).2 L).2.calls =
      (calculate api true ⟨[], 0⟩ L).2.calls := by
  have h1 := stateAfter_spec api L ⟨[], 0⟩ hsucc
  have hfirst : (stateAfter api true ⟨[], 0⟩ L).calls = (L.map keyOf).dedup.length := by
    rw [h1.1]
    show 0 + newCount (L.map keyOf) [] = _
    rw [newCount_nil_seen, Nat.zero_add]
  constructor
  · exact hfirst
  · have h2 := stateAfter_spec api L (stateAfter api true ⟨[], 0⟩ L) hsucc
    have hall : ∀ k ∈ L.map keyOf,
        k ∈ (stateAfter api true ⟨[], 0⟩ L).cache.map Prod.fst :=
      fun k hk => (h1.2 k).mpr (Or.inl hk)
    have hzero := newCount_zero (L.map keyOf) _ hall
    show (stateAfter api true (stateAfter api true ⟨[], 0⟩ L) L).calls
      = (stateAfter api true ⟨[], 0⟩ L).calls
    rw [h2.1, hzero, Nat.add_zero]

/-- Witness for C7 at a concrete ingredient list with a repeated name
("Flour" and "flour " share the cache key "flour"): one external call in
total, none added by the second pass. -/
theorem calculate_cache_dedup_witness :
    (∀ ing ∈ [(⟨"Flour", 1, "g", none⟩ : ParsedIngredient), ⟨"flour ", 2, "g", none⟩],
      ((fun (_ : String) => some (⟨some 364, some 10, some 76, some 1⟩ : UsdaProfile))
        (clean_ingredient_name ing.ingredient)).isSome = true) ∧
    ((calculate (fun _ => some ⟨some 364, some 10, some 76, some 1⟩) true ⟨[], 0⟩
        [⟨"Flour", 1, "g", none⟩, ⟨"flour ", 2, "g", none⟩]).2.calls =
      ([(⟨"Flour", 1, "g", none⟩ : ParsedIngredient),
        ⟨"flour ", 2, "g", none⟩].map keyOf).dedup.length ∧
     (calculate (fun _ => some ⟨some 364, some 10, some 76, some 1⟩) true
        (calculate (fun _ => some ⟨some 364, some 10, some 76, some 1⟩) true ⟨[], 0⟩
          [⟨"Flour", 1, "g", none⟩, ⟨"flour ", 2, "g", none⟩]).2
        [⟨"Flour", 1, "g", none⟩, ⟨"flour ", 2, "g", none⟩]).2.calls =
      (calculate (fun _ => some ⟨some 364, some 10, some 76, some 1⟩) true ⟨[], 0⟩
        [⟨"Flour", 1, "g", none⟩, ⟨"flour ", 2, "g", none⟩]).2.calls) ∧
    ([(⟨"Flour", 1, "g", none⟩ : ParsedIngredient),
      ⟨"flour ", 2, "g", none⟩].map keyOf).dedup.length = 1 :=
  ⟨fun _ _ => rfl,
   calculate_cache_dedup (fun _ => some ⟨some 364, some 10, some 76, some 1⟩)
     [⟨"Flour", 1, "g", none⟩, ⟨"flour ", 2, "g", none⟩] (fun _ _ => rfl),
   by with_unfolding_all decide⟩

/-- Witness for C10: "kg" lowercases to a string containing "g" and is
returned unchanged, and a parser-fallback ingredient (quantity 1, unit
"serving") with profile (200, 10, 4, 2) per 100 g contributes exactly the
profile scaled by 1/100. -/
theorem convert_to_grams_g_substring_witness :
    (strContains (pyLower "kG") "g" = true ∧ convert_to_grams 7 "kG" "beef" = 7) ∧
    ((fun (_ : String) => some (⟨some 200, some 10, some 4, some 2⟩ : UsdaProfile))
        (clean_ingredient_name "egg") = some ⟨some 200, some 10, some 4, some 2⟩ ∧
     (⟨some 200, some 10, some 4, some 2⟩ : UsdaProfile).isEmptyDict = false) ∧
    (calculate (fun _ => some ⟨some 200, some 10, some 4, some 2⟩) true ⟨[], 0⟩
        [⟨"egg", 1, "serving", none⟩]).1 =
      ⟨pyTrunc ((200 : ℚ) * (1/100)), pyTrunc ((10 : ℚ) * (1/100)),
       pyTrunc ((4 : ℚ) * (1/100)), pyTrunc ((2 : ℚ) * (1/100))⟩ :=
  ⟨⟨by decide, convert_to_grams_g_substring.1 7 "kG" "beef" (by decide)⟩,
   ⟨rfl, by decide⟩,
   convert_to_grams_g_substring.2.2.2.2 "egg" ⟨some 200, some 10, some 4, some 2⟩
     (fun _ => some ⟨some 200, some 10, some 4, some 2⟩) rfl (by decide)⟩
